import Mathlib

/-!
Verification of the libcaer DAVIS / MIPI-CX3 event-stream decoders.

This file gives a shallow embedding, in Lean 4, of the event-translator
state machines of `src/davis.c` and of the MIPI-CX3 translator
(`mipiCx3EventTranslator`), together with theorems settling the frozen
claims about them.  Machine integers are modelled as `Nat`/`Int` with the
explicit truncating casts `I32T`, `I16T`, `U16T` where the C code casts.
Event packets are modelled as Lean lists whose length plays the role of the
C write position; `ensureSpaceForEvents` (capacity-doubling growth) always
succeeds in this model, corresponding to runs in which allocation does not
fail.  Logging calls are omitted: they do not change decoder state.
-/

namespace Libcaer

/-- `INT32_MAX` from `<stdint.h>`. -/
def INT32_MAX : Int := 2147483647

/-- `#define TS_WRAP_ADD 0x8000` (davis.c). -/
def TS_WRAP_ADD : Nat := 0x8000

/-- Modelled from the spec: `APS_ADC_DEPTH` is defined in the `davis.h`
header which is not part of the provided sources; the spec's CDS clamp
range [0, 1023] fixes a 10-bit ADC depth. -/
def APS_ADC_DEPTH : Nat := 10

/-- Modelled from the spec: `IMU_TOTAL_COUNT` is defined in the missing
`davis.h` header; the spec states the full ordered IMU burst is 14
8-bit fields. -/
def IMU_TOTAL_COUNT : Nat := 14

/-- Modelled from the spec: `IMU_TYPE_TEMP` flag bit from the missing
`davis.h` header (bit layout of `imu.type`). -/
def IMU_TYPE_TEMP : Nat := 0x01

/-- Modelled from the spec: `IMU_TYPE_GYRO` flag bit from the missing
`davis.h` header. -/
def IMU_TYPE_GYRO : Nat := 0x02

/-- Modelled from the spec: `IMU_TYPE_ACCEL` flag bit from the missing
`davis.h` header. -/
def IMU_TYPE_ACCEL : Nat := 0x04

/-- The C cast `I32T` / `(int32_t)`: truncation to signed 32-bit. -/
def I32T (x : Int) : Int := (x + 2 ^ 31) % 2 ^ 32 - 2 ^ 31

/-- The C idiom `I16T((hi << 8) | lo)`: reinterpreting a 16-bit pattern as a
signed 16-bit integer. -/
def I16T (x : Int) : Int := (x + 2 ^ 15) % 2 ^ 16 - 2 ^ 15

/-- The C cast `U16T` / `(uint16_t)`: truncation to unsigned 16-bit,
applied to a possibly negative integer expression. -/
def U16T (x : Int) : Nat := ((x % 2 ^ 16).toNat) % 2 ^ 16

/-! ## Timestamp engine (new logic)

State and transition functions of the DAVIS timestamp engine.  The bodies
of `handleTimestampUpdateNewLogic`, `handleTimestampWrapNewLogic` and
`handleTimestampResetNewLogic` live in a common header that is not among
the provided sources, but davis.c contains the identical legacy
implementation inline (timestamp branch, special case 1, and the
`case 7: // Timestamp wrap` block near the end of the file), from which
these definitions are translated; field names follow the new-logic
`state->timestamps` struct (`wrapAdd`, `wrapOverflow`, `current`, `last`).
-/

structure TimestampsState where
  wrapOverflow : Int
  wrapAdd : Int
  last : Int
  current : Int
  deriving Repr, DecidableEq

/-- Main 15-bit timestamp unit: `last = current; current = wrapAdd + (event & 0x7FFF)`. -/
def handleTimestampUpdate (ts : TimestampsState) (event : Nat) : TimestampsState :=
  { ts with
    last := ts.current
    current := ts.wrapAdd + ((event &&& 0x7FFF) : Nat) }

/-- Timestamp reset: zero every timestamp state field. -/
def handleTimestampReset (_ts : TimestampsState) : TimestampsState :=
  { wrapOverflow := 0, wrapAdd := 0, last := 0, current := 0 }

/-- Timestamp-wrap unit with multiplier `data`; returns the new state and
the big-wrap flag (`true` when the 64-bit sum overflows `INT32_MAX`). -/
def handleTimestampWrap (ts : TimestampsState) (data : Nat) (tsWrapAdd : Nat) :
    TimestampsState × Bool :=
  let wrapJump : Int := (tsWrapAdd : Int) * (data : Int)
  let wrapSum : Int := ts.wrapAdd + wrapJump
  if wrapSum > INT32_MAX then
    let wrapRemainder : Int := wrapSum - INT32_MAX - 1
    ({ wrapOverflow := ts.wrapOverflow + 1
       wrapAdd := I32T wrapRemainder
       last := 0
       current := I32T wrapRemainder }, true)
  else
    ({ ts with
       wrapAdd := I32T wrapSum
       last := ts.current
       current := I32T wrapSum }, false)

/-! ## Event records and packets -/

/-- Special-event type tags (subset used by the embedded translators; the
full enum lives in the libcaer events headers). -/
inductive SpecialEventType where
  | TIMESTAMP_WRAP
  | TIMESTAMP_RESET
  | EXTERNAL_INPUT_FALLING_EDGE
  | EXTERNAL_INPUT_RISING_EDGE
  | EXTERNAL_INPUT_PULSE
  | APS_FRAME_START
  | APS_FRAME_END
  | APS_EXPOSURE_START
  | APS_EXPOSURE_END
  | EXTERNAL_GENERATOR_FALLING_EDGE
  | EXTERNAL_GENERATOR_RISING_EDGE
  | EVENT_READOUT_START
  deriving Repr, DecidableEq

structure SpecialEvent where
  timestamp : Int
  typ : SpecialEventType
  deriving Repr, DecidableEq

structure PolarityEvent where
  timestamp : Int
  x : Nat
  y : Nat
  polarity : Bool
  deriving Repr, DecidableEq

structure FrameEvent where
  tsStartOfFrame : Int
  tsStartOfExposure : Int
  tsEndOfExposure : Int
  tsEndOfFrame : Int
  positionX : Nat
  positionY : Nat
  lengthX : Nat
  lengthY : Nat
  pixels : List Nat
  deriving Repr, DecidableEq

/-- IMU6 event record.  The C code stores the samples scaled to physical
units as IEEE floats; here the assembled signed 16-bit raw samples (after
the per-axis sign flips) are kept instead, since floating-point scaling is
outside the embedding and no claim depends on the scaled values. -/
structure IMU6Event where
  timestamp : Int
  accelX : Int
  accelY : Int
  accelZ : Int
  temp : Int
  gyroX : Int
  gyroY : Int
  gyroZ : Int
  deriving Repr, DecidableEq

def IMU6Event.zero : IMU6Event :=
  { timestamp := 0, accelX := 0, accelY := 0, accelZ := 0, temp := 0
    gyroX := 0, gyroY := 0, gyroZ := 0 }

/-- The four in-progress packets of the DAVIS Packet/Container Manager.
A list's length is the C write position; the C capacity field is dropped
because `ensureSpaceForEvents` growth always succeeds in this model. -/
structure DavisPackets where
  polarity : List PolarityEvent
  special : List SpecialEvent
  frame : List FrameEvent
  imu6 : List IMU6Event
  deriving Repr, DecidableEq

/-- A sealed event-packet container: one optional packet slot per type. -/
structure DavisContainer where
  polarity : Option (List PolarityEvent)
  special : Option (List SpecialEvent)
  frame : Option (List FrameEvent)
  imu6 : Option (List IMU6Event)
  deriving Repr, DecidableEq

/-! ## DAVIS decoder state (`davisCommonState` in davis.c) -/

/-- APS readout phase (`APS_READOUT_RESET` = 0, `APS_READOUT_SIGNAL` = 1). -/
inductive ReadoutType where
  | reset
  | signal
  deriving Repr, DecidableEq

structure RoiState where
  positionX : Nat
  positionY : Nat
  sizeX : Nat
  sizeY : Nat
  tmpData : Nat
  update : Nat
  deriving Repr, DecidableEq

structure FrameAccum where
  tsStartFrame : Int
  tsStartExposure : Int
  tsEndExposure : Int
  pixels : List Nat
  deriving Repr, DecidableEq

structure CDavisSupport where
  offset : Int
  offsetDirection : Nat
  deriving Repr, DecidableEq

structure AutoExposureAccum where
  tmpData : Nat
  currentFrameExposure : Nat
  deriving Repr, DecidableEq

structure ApsState where
  ignoreEvents : Bool
  globalShutter : Bool
  currentReadoutType : ReadoutType
  countXReset : Nat
  countXSignal : Nat
  countYReset : Nat
  countYSignal : Nat
  expectedCountX : Nat
  expectedCountY : Nat
  roi : RoiState
  frame : FrameAccum
  cDavisSupport : CDavisSupport
  autoExposure : AutoExposureAccum
  deriving Repr, DecidableEq

/-- `state->aps.countX[rt]`. -/
def ApsState.countX (a : ApsState) : ReadoutType → Nat
  | .reset => a.countXReset
  | .signal => a.countXSignal

/-- `state->aps.countY[rt]`. -/
def ApsState.countY (a : ApsState) : ReadoutType → Nat
  | .reset => a.countYReset
  | .signal => a.countYSignal

def ApsState.setCountX (a : ApsState) : ReadoutType → Nat → ApsState
  | .reset, v => { a with countXReset := v }
  | .signal, v => { a with countXSignal := v }

def ApsState.setCountY (a : ApsState) : ReadoutType → Nat → ApsState
  | .reset, v => { a with countYReset := v }
  | .signal, v => { a with countYSignal := v }

structure ImuState where
  ignoreEvents : Bool
  count : Nat
  tmpData : Nat
  typ : Nat
  currentEvent : IMU6Event
  deriving Repr, DecidableEq

structure DvsState where
  lastY : Nat
  deriving Repr, DecidableEq

/-- Per-device configuration fixed for the duration of a stream: sensor
geometry, orientation flags, chip class, and the container commit limits
(`containerGenerationGetMaxPacketSize` and the max commit interval). -/
structure DavisConfig where
  dvsSizeX : Nat
  dvsSizeY : Nat
  dvsInvertXY : Bool
  apsSizeX : Nat
  apsSizeY : Nat
  apsInvertXY : Bool
  apsFlipX : Bool
  apsFlipY : Bool
  isDavis640H : Bool
  isDavis240 : Bool
  imuFlipX : Bool
  imuFlipY : Bool
  imuFlipZ : Bool
  maxContainerPacketSize : Nat
  maxContainerInterval : Int
  deriving Repr, DecidableEq

structure DavisState where
  timestamps : TimestampsState
  dvs : DvsState
  aps : ApsState
  imu : ImuState
  packets : DavisPackets
  /-- `currentPacketContainerCommitTimestamp`; `-1` means not yet set. -/
  commitTimestamp : Int
  /-- Containers handed to the Data Exchange so far, in commit order. -/
  out : List DavisContainer
  deriving Repr, DecidableEq

/-- Append one special event (always succeeds, cf. `ensureSpaceForEvents`). -/
def appendSpecial (s : DavisState) (ts : Int) (typ : SpecialEventType) : DavisState :=
  { s with packets :=
    { s.packets with special := s.packets.special ++ [{ timestamp := ts, typ := typ }] } }

/-- Modelled from the spec: `containerGenerationCommitTimestampInit` lives
in a common header absent from the sources; per §4.5 the container records
its *first* commit timestamp, and the `-1` sentinel for "not yet set" is
visible in the mipiCx3 translator source. -/
def commitTimestampInit (s : DavisState) (ts : Int) : DavisState :=
  if s.commitTimestamp = -1 then { s with commitTimestamp := ts } else s

/-! ## APS frame reconstructor (davis.c `apsInitFrame` / `apsROIUpdateSizes`
/ `apsUpdateFrame` / `apsEndFrame`) -/

/-- `apsROIUpdateSizes`: recompute ROI sizes from start/end columns-rows and
derive the expected per-phase counts honoring `invertXY`. -/
def apsROIUpdateSizes (cfg : DavisConfig) (a : ApsState) : ApsState :=
  let startColumn := a.roi.positionX
  let startRow := a.roi.positionY
  let endColumn := a.roi.sizeX
  let endRow := a.roi.sizeY
  let sizeX := U16T ((endColumn : Int) + 1 - startColumn)
  let sizeY := U16T ((endRow : Int) + 1 - startRow)
  let a := { a with roi := { a.roi with sizeX := sizeX, sizeY := sizeY } }
  if cfg.apsInvertXY then
    { a with expectedCountX := a.roi.sizeY, expectedCountY := a.roi.sizeX }
  else
    { a with expectedCountX := a.roi.sizeX, expectedCountY := a.roi.sizeY }

/-- `apsInitFrame`: reset the per-phase counters and accumulators, latch the
start-of-frame timestamp and emit the `APS_FRAME_START` info event. -/
def apsInitFrame (s : DavisState) : DavisState :=
  let a := s.aps
  let a := { a with
    ignoreEvents := false
    autoExposure := { tmpData := 0, currentFrameExposure := 0 }
    roi := { a.roi with tmpData := 0, update := 0 }
    currentReadoutType := ReadoutType.reset
    countXReset := 0, countXSignal := 0, countYReset := 0, countYSignal := 0
    frame := { a.frame with tsStartFrame := s.timestamps.current } }
  appendSpecial { s with aps := a } s.timestamps.current SpecialEventType.APS_FRAME_START

/-- The linear pixel index computed by `apsUpdateFrame` from the per-phase
row/column counters, honoring flip-X/flip-Y, the DAVIS640H serpentine
sub-pixel offset, and invert-XY. -/
def apsPixelPosition (cfg : DavisConfig) (a : ApsState) : Nat :=
  let rt := a.currentReadoutType
  let xPos :=
    if cfg.apsFlipX then U16T ((a.expectedCountX : Int) - 1 - a.countX rt)
    else a.countX rt
  let yPos :=
    if cfg.apsFlipY then U16T ((a.expectedCountY : Int) - 1 - a.countY rt)
    else a.countY rt
  let yPos := if cfg.isDavis640H then U16T ((yPos : Int) + a.cDavisSupport.offset) else yPos
  let (xPos, yPos) := if cfg.apsInvertXY then (yPos, xPos) else (xPos, yPos)
  yPos * a.roi.sizeX + xPos

/-- The CDS pixel value computed by `apsUpdateFrame` on the second readout
phase: `resetValue - signalValue` clamped to [0, 1023], forced to 1023 when
`resetValue < 384 || signalValue == 0`, then shifted to 16-bit depth. -/
def apsCDSPixelValue (resetValue signalValue : Nat) : Nat :=
  let pixelValue : Int :=
    if resetValue < 384 ∨ signalValue = 0 then 1023
    else
      let d : Int := (resetValue : Int) - signalValue
      let d := if d < 0 then 0 else d
      if d > 1023 then 1023 else d
  U16T (pixelValue * 2 ^ (16 - APS_ADC_DEPTH))

/-- `apsUpdateFrame`: store the raw sample on the logically first readout
phase, perform correlated double sampling on the second, and advance the
DAVIS640H serpentine sub-pixel offset. -/
def apsUpdateFrame (cfg : DavisConfig) (s : DavisState) (data : Nat) : DavisState :=
  let a := s.aps
  let pixelPosition := apsPixelPosition cfg a
  let isCDavisGS := cfg.isDavis640H && a.globalShutter
  let pixels := a.frame.pixels
  let pixels :=
    if (a.currentReadoutType = ReadoutType.reset ∧ ¬(isCDavisGS = true))
        ∨ (a.currentReadoutType = ReadoutType.signal ∧ isCDavisGS = true) then
      pixels.set pixelPosition data
    else
      let stored := pixels.getD pixelPosition 0
      let resetValue := if isCDavisGS then data else stored
      let signalValue := if isCDavisGS then stored else data
      pixels.set pixelPosition (apsCDSPixelValue resetValue signalValue)
  let a := { a with frame := { a.frame with pixels := pixels } }
  let a :=
    if cfg.isDavis640H then
      if a.cDavisSupport.offsetDirection = 0 then
        let off := a.cDavisSupport.offset + 1
        if off = 321 then
          { a with cDavisSupport := { offsetDirection := 1, offset := 318 } }
        else
          { a with cDavisSupport := { a.cDavisSupport with offset := off } }
      else
        { a with cDavisSupport := { a.cDavisSupport with offset := a.cDavisSupport.offset - 3 } }
    else a
  { s with aps := a }

/-- `apsEndFrame`: check every readout phase's column counter against the
expected column count, and emit the `APS_FRAME_END` info event; returns the
frame-validity flag. -/
def apsEndFrame (s : DavisState) : DavisState × Bool :=
  let validFrame :=
    s.aps.countXReset = s.aps.expectedCountX ∧ s.aps.countXSignal = s.aps.expectedCountX
  (appendSpecial s s.timestamps.current SpecialEventType.APS_FRAME_END, decide validFrame)

/-! ## IMU6 assembler (davis.c misc8 code 0 sub-machine) -/

/-- One 8-bit IMU field: high-byte latch on even steps, signed 16-bit
assembly with per-axis sign flips on odd steps, plus the type-dependent
step-counter jumps for absent sensors; the counter always advances by one
at the end. -/
def imuProcessSample (cfg : DavisConfig) (imu : ImuState) (misc8Data : Nat) : ImuState :=
  let assemble : Int := I16T ((imu.tmpData : Int) * 2 ^ 8 + misc8Data)
  let imu :=
    match imu.count with
    | 0 | 2 | 4 | 6 | 8 | 10 | 12 => { imu with tmpData := misc8Data }
    | 1 =>
      let v := if cfg.imuFlipX then I16T (-assemble) else assemble
      { imu with currentEvent := { imu.currentEvent with accelX := v } }
    | 3 =>
      let v := if cfg.imuFlipY then I16T (-assemble) else assemble
      { imu with currentEvent := { imu.currentEvent with accelY := v } }
    | 5 =>
      let v := if cfg.imuFlipZ then I16T (-assemble) else assemble
      let imu := { imu with currentEvent := { imu.currentEvent with accelZ := v } }
      if imu.typ &&& IMU_TYPE_TEMP = 0 then
        if imu.typ &&& IMU_TYPE_GYRO ≠ 0 then { imu with count := imu.count + 2 }
        else { imu with count := imu.count + 8 }
      else imu
    | 7 =>
      let imu := { imu with currentEvent := { imu.currentEvent with temp := assemble } }
      if imu.typ &&& IMU_TYPE_GYRO = 0 then { imu with count := imu.count + 6 }
      else imu
    | 9 =>
      let v := if cfg.imuFlipX then I16T (-assemble) else assemble
      { imu with currentEvent := { imu.currentEvent with gyroX := v } }
    | 11 =>
      let v := if cfg.imuFlipY then I16T (-assemble) else assemble
      { imu with currentEvent := { imu.currentEvent with gyroY := v } }
    | 13 =>
      let v := if cfg.imuFlipZ then I16T (-assemble) else assemble
      { imu with currentEvent := { imu.currentEvent with gyroZ := v } }
    | _ => imu
  { imu with count := imu.count + 1 }

/-! ## DAVIS event translator (davis.c `davisEventTranslator`, new logic) -/

/-- The finalized FrameEvent built at a validated APS Frame End: latched
frame/exposure timestamps, the current timestamp as end-of-frame, the ROI
metadata and the accumulated pixel buffer. -/
def frameEventOf (s : DavisState) : FrameEvent :=
  { tsStartOfFrame := s.aps.frame.tsStartFrame
    tsStartOfExposure := s.aps.frame.tsStartExposure
    tsEndOfExposure := s.aps.frame.tsEndExposure
    tsEndOfFrame := s.timestamps.current
    positionX := s.aps.roi.positionX
    positionY := s.aps.roi.positionY
    lengthX := s.aps.roi.sizeX
    lengthY := s.aps.roi.sizeY
    pixels := s.aps.frame.pixels }

/-- Dispatch of one decoded special event (`code` 0) on its `data` field.
Returns the updated state and the `tsReset` flag.  The float IMU scale
factors (`calculateIMUAccelScale` / `calculateIMUGyroScale`) of the scale
config path are not representable here and are dropped; they do not affect
any control flow. -/
def davisHandleSpecial (cfg : DavisConfig) (s : DavisState) (data : Nat) :
    DavisState × Bool :=
  match data with
  | 0 => (s, false)
  | 1 =>
    let s := { s with timestamps := handleTimestampReset s.timestamps }
    let s := { s with commitTimestamp := -1 }
    let s := commitTimestampInit s s.timestamps.current
    (s, true)
  | 2 => (appendSpecial s s.timestamps.current SpecialEventType.EXTERNAL_INPUT_FALLING_EDGE, false)
  | 3 => (appendSpecial s s.timestamps.current SpecialEventType.EXTERNAL_INPUT_RISING_EDGE, false)
  | 4 => (appendSpecial s s.timestamps.current SpecialEventType.EXTERNAL_INPUT_PULSE, false)
  | 5 =>
    ({ s with imu := { s.imu with
        ignoreEvents := false, count := 0, typ := 0, currentEvent := IMU6Event.zero } }, false)
  | 7 =>
    if s.imu.ignoreEvents then (s, false)
    else if s.imu.count = IMU_TOTAL_COUNT then
      let ev := { s.imu.currentEvent with timestamp := s.timestamps.current }
      ({ s with packets := { s.packets with imu6 := s.packets.imu6 ++ [ev] } }, false)
    else (s, false)
  | 8 =>
    let s := { s with aps := { s.aps with globalShutter := true } }
    (apsInitFrame s, false)
  | 9 =>
    let s := { s with aps := { s.aps with globalShutter := false } }
    (apsInitFrame s, false)
  | 10 =>
    if s.aps.ignoreEvents then (s, false)
    else
      let (s, validFrame) := apsEndFrame s
      if validFrame then
        ({ s with packets := { s.packets with frame := s.packets.frame ++ [frameEventOf s] } },
          false)
      else (s, false)
  | 11 =>
    if s.aps.ignoreEvents then (s, false)
    else
      ({ s with aps := { s.aps with
          currentReadoutType := ReadoutType.reset
          countYReset := 0
          cDavisSupport := { offsetDirection := 0, offset := 1 } } }, false)
  | 12 =>
    if s.aps.ignoreEvents then (s, false)
    else
      ({ s with aps := { s.aps with
          currentReadoutType := ReadoutType.signal
          countYSignal := 0
          cDavisSupport := { offsetDirection := 0, offset := 1 } } }, false)
  | 13 =>
    if s.aps.ignoreEvents then (s, false)
    else
      let a := s.aps
      ({ s with aps := a.setCountX a.currentReadoutType (a.countX a.currentReadoutType + 1) },
        false)
  | 14 =>
    if s.aps.ignoreEvents then (s, false)
    else
      let s := { s with aps := { s.aps with
        frame := { s.aps.frame with tsStartExposure := s.timestamps.current } } }
      (appendSpecial s s.timestamps.current SpecialEventType.APS_EXPOSURE_START, false)
  | 15 =>
    if s.aps.ignoreEvents then (s, false)
    else
      let s := { s with aps := { s.aps with
        frame := { s.aps.frame with tsEndExposure := s.timestamps.current } } }
      (appendSpecial s s.timestamps.current SpecialEventType.APS_EXPOSURE_END, false)
  | 16 => (appendSpecial s s.timestamps.current SpecialEventType.EXTERNAL_GENERATOR_FALLING_EDGE, false)
  | 17 => (appendSpecial s s.timestamps.current SpecialEventType.EXTERNAL_GENERATOR_RISING_EDGE, false)
  | _ => (s, false)

/-- Misc-8-bit path (`code` 5): IMU data bytes, APS ROI geometry updates and
the IMU scale configuration. -/
def davisHandleMisc8 (cfg : DavisConfig) (s : DavisState) (data : Nat) : DavisState :=
  let misc8Code := (data &&& 0x0F00) >>> 8
  let misc8Data := data &&& 0x00FF
  match misc8Code with
  | 0 =>
    if s.imu.ignoreEvents then s
    else { s with imu := imuProcessSample cfg s.imu misc8Data }
  | 1 =>
    { s with aps := { s.aps with roi := { s.aps.roi with tmpData := misc8Data <<< 8 } } }
  | 2 =>
    let a := s.aps
    let a :=
      match a.roi.update &&& 0x03 with
      | 0 => { a with roi := { a.roi with positionX := a.roi.tmpData ||| misc8Data } }
      | 1 => { a with roi := { a.roi with positionY := a.roi.tmpData ||| misc8Data } }
      | 2 => { a with roi := { a.roi with sizeX := a.roi.tmpData ||| misc8Data } }
      | 3 =>
        let a := { a with roi := { a.roi with sizeY := a.roi.tmpData ||| misc8Data } }
        apsROIUpdateSizes cfg a
      | _ => a
    { s with aps := { a with roi := { a.roi with update := a.roi.update + 1 } } }
  | 3 =>
    if s.imu.ignoreEvents then s
    else
      let typ := (data >>> 5) &&& 0x07
      let count :=
        if typ &&& IMU_TYPE_ACCEL ≠ 0 then 0
        else if typ &&& IMU_TYPE_TEMP ≠ 0 then 6
        else if typ &&& IMU_TYPE_GYRO ≠ 0 then 8
        else 14
      { s with imu := { s.imu with typ := typ, count := count } }
  | _ => s

/-- Handle one decoded 16-bit unit (timestamp bit, or `code`/`data` event),
without the trailing commit evaluation.  Returns `(state, tsReset, tsBigWrap)`. -/
def davisHandleUnit (cfg : DavisConfig) (s : DavisState) (event : Nat) :
    DavisState × Bool × Bool :=
  if event &&& 0x8000 ≠ 0 then
    let s := { s with timestamps := handleTimestampUpdate s.timestamps event }
    (commitTimestampInit s s.timestamps.current, false, false)
  else
    let code := (event &&& 0x7000) >>> 12
    let data := event &&& 0x0FFF
    match code with
    | 0 =>
      let (s, tsReset) := davisHandleSpecial cfg s data
      (s, tsReset, false)
    | 1 =>
      if data ≥ cfg.dvsSizeY then (s, false, false)
      else ({ s with dvs := { lastY := data } }, false, false)
    | 2 | 3 =>
      if data ≥ cfg.dvsSizeX then (s, false, false)
      else
        let pe : PolarityEvent :=
          { timestamp := s.timestamps.current
            polarity := code &&& 0x01 = 1
            x := if cfg.dvsInvertXY then s.dvs.lastY else data
            y := if cfg.dvsInvertXY then data else s.dvs.lastY }
        ({ s with packets := { s.packets with polarity := s.packets.polarity ++ [pe] } },
          false, false)
    | 4 =>
      if s.aps.ignoreEvents then (s, false, false)
      else if s.aps.countX s.aps.currentReadoutType ≥ s.aps.expectedCountX
          ∨ s.aps.countY s.aps.currentReadoutType ≥ s.aps.expectedCountY then
        (s, false, false)
      else
        let data := if cfg.isDavis240 then (data <<< 1) &&& 0xFFFF else data
        let s := apsUpdateFrame cfg s data
        let a := s.aps
        ({ s with aps := a.setCountY a.currentReadoutType (a.countY a.currentReadoutType + 1) },
          false, false)
    | 5 => (davisHandleMisc8 cfg s data, false, false)
    | 6 =>
      let misc10Code := (data &&& 0x0C00) >>> 10
      let misc10Data := data &&& 0x03FF
      match misc10Code with
      | 0 =>
        let ae := s.aps.autoExposure
        ({ s with aps := { s.aps with autoExposure :=
          { tmpData := ae.tmpData + 1
            currentFrameExposure :=
              ae.currentFrameExposure ||| (misc10Data <<< (10 * ae.tmpData)) } } },
          false, false)
      | _ => (s, false, false)
    | 7 =>
      let (ts, tsBigWrap) := handleTimestampWrap s.timestamps data TS_WRAP_ADD
      let s := { s with timestamps := ts }
      if tsBigWrap then
        (appendSpecial s INT32_MAX SpecialEventType.TIMESTAMP_WRAP, false, true)
      else
        (commitTimestampInit s s.timestamps.current, false, false)
    | _ => (s, false, false)

/-- Modelled from the spec: `containerGenerationIsCommitTimestampElapsed`
lives in a common header absent from the sources; per §4.5 the time
trigger fires when the span from the container's first recorded commit
timestamp to the current time exceeds the configured maximum interval
(epochs folded in via the wrap-overflow counter). -/
def isCommitTimestampElapsed (maxInterval : Int) (commitTimestamp : Int)
    (wrapOverflow : Int) (current : Int) : Prop :=
  maxInterval > 0 ∧ wrapOverflow * 2 ^ 31 + current > commitTimestamp + maxInterval

instance (a b : Int) (c d : Int) : Decidable (isCommitTimestampElapsed a b c d) := by
  unfold isCommitTimestampElapsed
  infer_instance

/-- The container holding only the deferred `TIMESTAMP_RESET` special event,
committed alone right after a timestamp reset. -/
def tsResetContainer : DavisContainer :=
  { polarity := none
    special := some [{ timestamp := INT32_MAX, typ := SpecialEventType.TIMESTAMP_RESET }]
    frame := none
    imu6 := none }

/-- Commit-trigger evaluation and container commit, run after every decoded
unit (davis.c lines 3207-3358).  Non-empty packets are detached into the
container and the manager's references reset; on `tsReset`/`tsBigWrap` the
APS and IMU6 accumulators are set to ignore events.  The hand-off itself
(`containerGenerationExecute`) is in a missing common header and is
modelled from the spec: the sealed container is pushed unless it is empty,
a reset additionally pushes the deferred `TIMESTAMP_RESET` marker alone in
its own container, and the commit timestamp is cleared for the next
container. -/
def davisCommit (cfg : DavisConfig) (s : DavisState) (tsReset tsBigWrap : Bool) :
    DavisState :=
  let p := s.packets
  let containerSizeCommit :=
    cfg.maxContainerPacketSize > 0
      ∧ (p.polarity.length ≥ cfg.maxContainerPacketSize
        ∨ p.special.length ≥ cfg.maxContainerPacketSize
        ∨ p.frame.length ≥ cfg.maxContainerPacketSize
        ∨ p.imu6.length ≥ cfg.maxContainerPacketSize)
  let containerTimeCommit :=
    isCommitTimestampElapsed cfg.maxContainerInterval s.commitTimestamp
      s.timestamps.wrapOverflow s.timestamps.current
  if tsReset = true ∨ tsBigWrap = true ∨ containerSizeCommit ∨ containerTimeCommit then
    let cont : DavisContainer :=
      { polarity := if p.polarity.length > 0 then some p.polarity else none
        special := if p.special.length > 0 then some p.special else none
        frame := if p.frame.length > 0 then some p.frame else none
        imu6 := if p.imu6.length > 0 then some p.imu6 else none }
    let emptyContainerCommit :=
      p.polarity.length = 0 ∧ p.special.length = 0 ∧ p.frame.length = 0 ∧ p.imu6.length = 0
    let p' : DavisPackets :=
      { polarity := if p.polarity.length > 0 then [] else p.polarity
        special := if p.special.length > 0 then [] else p.special
        frame := if p.frame.length > 0 then [] else p.frame
        imu6 := if p.imu6.length > 0 then [] else p.imu6 }
    let s := { s with packets := p' }
    let s :=
      if tsReset = true ∨ tsBigWrap = true then
        { s with aps := { s.aps with ignoreEvents := true }
                 imu := { s.imu with ignoreEvents := true } }
      else s
    { s with
      out := s.out ++ (if emptyContainerCommit then [] else [cont])
        ++ (if tsReset = true then [tsResetContainer] else [])
      commitTimestamp := -1 }
  else s

/-- Process one decoded 16-bit unit: event dispatch followed by the commit
evaluation. -/
def davisProcessUnit (cfg : DavisConfig) (s : DavisState) (event : Nat) : DavisState :=
  let (s, tsReset, tsBigWrap) := davisHandleUnit cfg s event
  davisCommit cfg s tsReset tsBigWrap

/-- Process a list of decoded 16-bit units in arrival order. -/
def davisTranslateUnits (cfg : DavisConfig) (s : DavisState) (units : List Nat) :
    DavisState :=
  units.foldl (davisProcessUnit cfg) s

/-- `le16toh` pairing of the USB byte stream into 16-bit units, truncating a
trailing partial unit. -/
def bytesToUnits : List Nat → List Nat
  | b0 :: b1 :: rest => (b0 + 256 * b1) :: bytesToUnits rest
  | _ => []

/-- `davisEventTranslator` (new logic): checks the data-transfers-running
flag first and returns with no side effect when it is cleared; otherwise
truncates the buffer to whole units and processes them in order. -/
def davisEventTranslator (running : Bool) (cfg : DavisConfig) (s : DavisState)
    (buffer : List Nat) : DavisState :=
  if running then davisTranslateUnits cfg s (bytesToUnits buffer) else s

/-- Decoder state right after `davisDataStart`: zero-initialized handle
state with the APS/IMU accumulators ignoring events until their first Start
markers, and the container commit timestamp at the `-1` sentinel. -/
def davisInitialState (cfg : DavisConfig) : DavisState :=
  { timestamps := { wrapOverflow := 0, wrapAdd := 0, last := 0, current := 0 }
    dvs := { lastY := 0 }
    aps :=
      { ignoreEvents := true
        globalShutter := true
        currentReadoutType := ReadoutType.reset
        countXReset := 0, countXSignal := 0, countYReset := 0, countYSignal := 0
        expectedCountX := 0, expectedCountY := 0
        roi := { positionX := 0, positionY := 0, sizeX := 0, sizeY := 0, tmpData := 0, update := 0 }
        frame := { tsStartFrame := 0, tsStartExposure := 0, tsEndExposure := 0
                   pixels := List.replicate (cfg.apsSizeX * cfg.apsSizeY) 0 }
        cDavisSupport := { offset := 0, offsetDirection := 0 }
        autoExposure := { tmpData := 0, currentFrameExposure := 0 } }
    imu := { ignoreEvents := true, count := 0, tmpData := 0, typ := 0
             currentEvent := IMU6Event.zero }
    packets := { polarity := [], special := [], frame := [], imu6 := [] }
    commitTimestamp := -1
    out := [] }

/-! ## Whole-stream event counts (committed containers plus open packets) -/

/-- All polarity events produced so far, committed containers first. -/
def allPolarity (s : DavisState) : List PolarityEvent :=
  (s.out.flatMap fun c => c.polarity.getD []) ++ s.packets.polarity

/-- All frame events produced so far, committed containers first. -/
def allFrames (s : DavisState) : List FrameEvent :=
  (s.out.flatMap fun c => c.frame.getD []) ++ s.packets.frame

/-- All IMU6 events produced so far, committed containers first. -/
def allIMU6 (s : DavisState) : List IMU6Event :=
  (s.out.flatMap fun c => c.imu6.getD []) ++ s.packets.imu6

/-- All special events produced so far, committed containers first. -/
def allSpecial (s : DavisState) : List SpecialEvent :=
  (s.out.flatMap fun c => c.special.getD []) ++ s.packets.special

/-- The running count of big timestamp wraps over a sequence of wrap-unit
multipliers, following the engine state. -/
def bigWrapCount (ts : TimestampsState) : List Nat → Nat
  | [] => 0
  | w :: ws =>
    let r := handleTimestampWrap ts w TS_WRAP_ADD
    (if r.2 then 1 else 0) + bigWrapCount r.1 ws

/-- A representative DAVIS240-geometry configuration with default (identity)
orientation and the container size/time commit limits disabled. -/
def exampleConfig : DavisConfig :=
  { dvsSizeX := 240, dvsSizeY := 180, dvsInvertXY := false
    apsSizeX := 240, apsSizeY := 180, apsInvertXY := false
    apsFlipX := false, apsFlipY := false
    isDavis640H := false, isDavis240 := false
    imuFlipX := false, imuFlipY := false, imuFlipZ := false
    maxContainerPacketSize := 0, maxContainerInterval := 0 }

/-! ## MIPI-CX3 event translator (`mipiCx3EventTranslator`) -/

structure MipiTimestamps where
  last : Int
  current : Int
  lastReference : Int
  currentReference : Int
  lastSub : Nat
  deriving Repr, DecidableEq

structure MipiPackets where
  polarity : List PolarityEvent
  special : List SpecialEvent
  deriving Repr, DecidableEq

structure MipiContainer where
  polarity : Option (List PolarityEvent)
  special : Option (List SpecialEvent)
  deriving Repr, DecidableEq

structure MipiConfig where
  maxContainerPacketSize : Nat
  maxContainerInterval : Int
  deriving Repr, DecidableEq

structure MipiState where
  timestamps : MipiTimestamps
  /-- `state->dvs.lastX`: column address cached for subsequent group units. -/
  lastX : Nat
  packets : MipiPackets
  /-- `state->container.currentPacketContainerCommitTimestamp`; `-1` = unset. -/
  commitTimestamp : Int
  out : List MipiContainer
  deriving Repr, DecidableEq

/-- The SGROUP decode: each of the 16 low bits of the unit flags one
polarity event (high half ON, low half OFF) at a fixed pixel offset within
the addressed 8-pixel group; events are appended in mask order
`0x8000 >> i` for `i = 0 .. 15`. -/
def mipiSGroupEvents (event : Nat) (current : Int) (lastX : Nat) (groupAddr : Nat) :
    List PolarityEvent :=
  (List.range 16).filterMap fun i =>
    if event &&& (0x8000 >>> i) = 0 then none
    else
      some
        { timestamp := current
          polarity := i ≥ 8
          x := lastX
          y := groupAddr + (7 - (i &&& 0x07)) }

/-- Commit-trigger evaluation and commit for the MIPI translator
(part_000 lines 2083-2122); `tsReset`/`tsBigWrap` are always false on this
path.  The hand-off (`containerGenerationExecute`) is modelled exactly as
for the DAVIS translator. -/
def mipiCommit (cfg : MipiConfig) (s : MipiState) : MipiState :=
  let p := s.packets
  let containerSizeCommit :=
    cfg.maxContainerPacketSize > 0
      ∧ (p.polarity.length ≥ cfg.maxContainerPacketSize
        ∨ p.special.length ≥ cfg.maxContainerPacketSize)
  let containerTimeCommit :=
    isCommitTimestampElapsed cfg.maxContainerInterval s.commitTimestamp 0
      s.timestamps.current
  if containerSizeCommit ∨ containerTimeCommit then
    let cont : MipiContainer :=
      { polarity := if p.polarity.length > 0 then some p.polarity else none
        special := if p.special.length > 0 then some p.special else none }
    let emptyContainerCommit := p.polarity.length = 0 ∧ p.special.length = 0
    { s with
      packets :=
        { polarity := if p.polarity.length > 0 then [] else p.polarity
          special := if p.special.length > 0 then [] else p.special }
      out := s.out ++ (if emptyContainerCommit then [] else [cont])
      commitTimestamp := -1 }
  else s

/-- The sub-timestamp / reference handling of a MIPI COLUMN unit
(part_000 lines 2033-2049): a changed sub-timestamp that wrapped around
without an observed reference update advances the stale reference by
1000 µs before the reference is latched and `current` recomputed. -/
def mipiColumnTimestamps (ts : MipiTimestamps) (timestampSub : Nat) : MipiTimestamps :=
  let ts :=
    if timestampSub ≠ ts.lastSub then
      let ts :=
        if ts.currentReference = ts.lastReference ∧ timestampSub < ts.lastSub then
          { ts with lastReference := ts.lastReference + 1000 }
        else ts
      { ts with currentReference := ts.lastReference }
    else ts
  let ts := { ts with lastSub := timestampSub }
  { ts with
    last := ts.current
    current := I32T (ts.currentReference + timestampSub) }

/-- A COLUMN unit: cache the column address, run the timestamp handling,
initialize the container commit timestamp, and emit the readout-start
special event on the start-of-frame flag. -/
def mipiHandleColumn (s : MipiState) (event : Nat) : MipiState :=
  let columnAddr := event &&& 0x03FF
  let timestampSub := (event >>> 11) &&& 0x03FF
  let startOfFrame := (event >>> 21) &&& 0x01 = 1
  let s := { s with lastX := columnAddr }
  let s := { s with timestamps := mipiColumnTimestamps s.timestamps timestampSub }
  let s : MipiState :=
    if s.commitTimestamp = -1 then { s with commitTimestamp := s.timestamps.current }
    else s
  if startOfFrame then
    { s with packets := { s.packets with special := s.packets.special
        ++ [{ timestamp := s.timestamps.current
              typ := SpecialEventType.EVENT_READOUT_START }] } }
  else s

/-- Process one 32-bit MIPI unit (part_000 lines 1978-2122).  A group unit
arriving while the container commit timestamp is still `-1` is skipped via
`continue`, bypassing even the commit evaluation.  A non-group unit is
checked for its column bit (bit 26) and its timestamp-reference bit
(bit 27) in sequence. -/
def mipiProcessUnit (cfg : MipiConfig) (s : MipiState) (event : Nat) : MipiState :=
  if event &&& 0x80000000 ≠ 0 then
    if s.commitTimestamp = -1 then s
    else if event &&& 0x76000000 ≠ 0 then
      -- MGROUP: logged as unhandled, no state change.
      mipiCommit cfg s
    else
      let groupAddr := ((event >>> 18) &&& 0x003F) * 8
      let evs := mipiSGroupEvents event s.timestamps.current s.lastX groupAddr
      let s := { s with packets := { s.packets with polarity := s.packets.polarity ++ evs } }
      mipiCommit cfg s
  else
    let s : MipiState := if event &&& 0x04000000 ≠ 0 then mipiHandleColumn s event else s
    let s : MipiState :=
      if event &&& 0x08000000 ≠ 0 then
        let timestampRef := (event &&& 0x003FFFFF) * 1000
        { s with timestamps := { s.timestamps with lastReference := timestampRef } }
      else s
    mipiCommit cfg s

/-- Process a list of 32-bit MIPI units in arrival order. -/
def mipiTranslateUnits (cfg : MipiConfig) (s : MipiState) (units : List Nat) : MipiState :=
  units.foldl (mipiProcessUnit cfg) s

/-- MIPI decoder state right after `mipiCx3DataStart`: zeroed handle state,
commit timestamp at the `-1` sentinel. -/
def mipiInitialState : MipiState :=
  { timestamps := { last := 0, current := 0, lastReference := 0, currentReference := 0
                    lastSub := 0 }
    lastX := 0
    packets := { polarity := [], special := [] }
    commitTimestamp := -1
    out := [] }

/-- All polarity events produced by the MIPI translator so far. -/
def mipiAllPolarity (s : MipiState) : List PolarityEvent :=
  (s.out.flatMap fun c => c.polarity.getD []) ++ s.packets.polarity

/-! ## Packet/Container Manager machine

Embedding of the Manager's allocation and commit discipline (davis.c loop
head lines 2413-2454 and commit block lines 3222-3358; same pattern in
part_000 lines 1950-1973 and 2096-2122), abstracted over what each decoded
unit does in between: one machine input records how many events the unit
appended to each packet and whether it forced a commit (`tsReset` or
`tsBigWrap`).  Each allocated packet instance carries a fresh identity so
that re-attachment of the same instance is expressible. -/

structure MgrContainer where
  pol : Option Nat
  spec : Option Nat
  frm : Option Nat
  imu : Option Nat
  deriving Repr, DecidableEq

structure MgrState where
  /-- Next fresh packet identity (allocation counter). -/
  nextId : Nat
  pol : Option Nat
  spec : Option Nat
  frm : Option Nat
  imu : Option Nat
  polPos : Nat
  specPos : Nat
  frmPos : Nat
  imuPos : Nat
  out : List MgrContainer
  deriving Repr, DecidableEq

/-- One decoded unit's effect on the Manager: events appended per packet
type, and whether the unit forced a commit (timestamp reset / big wrap). -/
structure MgrInput where
  polAdd : Nat
  specAdd : Nat
  frmAdd : Nat
  imuAdd : Nat
  forceCommit : Bool
  deriving Repr, DecidableEq

/-- Identities attached to one container, slot order as in the source. -/
def containerIds (c : MgrContainer) : List Nat :=
  c.pol.toList ++ c.spec.toList ++ c.frm.toList ++ c.imu.toList

/-- All packet identities attached to committed containers so far. -/
def attachedIds (s : MgrState) : List Nat :=
  s.out.flatMap containerIds

/-- Identities currently referenced by the Manager's open packet slots. -/
def slotIds (s : MgrState) : List Nat :=
  s.pol.toList ++ s.spec.toList ++ s.frm.toList ++ s.imu.toList

/-- Loop-head allocation (special, polarity, frame, imu6 in source order):
a missing packet gets a fresh instance. -/
def allocSpec (s : MgrState) : MgrState :=
  match s.spec with
  | none => { s with spec := some s.nextId, nextId := s.nextId + 1 }
  | some _ => s

def allocPol (s : MgrState) : MgrState :=
  match s.pol with
  | none => { s with pol := some s.nextId, nextId := s.nextId + 1 }
  | some _ => s

def allocFrm (s : MgrState) : MgrState :=
  match s.frm with
  | none => { s with frm := some s.nextId, nextId := s.nextId + 1 }
  | some _ => s

def allocImu (s : MgrState) : MgrState :=
  match s.imu with
  | none => { s with imu := some s.nextId, nextId := s.nextId + 1 }
  | some _ => s

def mgrAllocate (s : MgrState) : MgrState :=
  allocImu (allocFrm (allocPol (allocSpec s)))

/-- Events appended by the decoded unit advance the write positions. -/
def mgrAppend (s : MgrState) (inp : MgrInput) : MgrState :=
  { s with
    polPos := s.polPos + inp.polAdd
    specPos := s.specPos + inp.specAdd
    frmPos := s.frmPos + inp.frmAdd
    imuPos := s.imuPos + inp.imuAdd }

/-- The commit trigger: a forced commit or any write position reaching the
configured container maximum. -/
def mgrTrigger (maxSize : Nat) (s : MgrState) (force : Bool) : Prop :=
  force = true
    ∨ (maxSize > 0
      ∧ (s.polPos ≥ maxSize ∨ s.specPos ≥ maxSize ∨ s.frmPos ≥ maxSize ∨ s.imuPos ≥ maxSize))

instance (maxSize : Nat) (s : MgrState) (force : Bool) :
    Decidable (mgrTrigger maxSize s force) := by
  unfold mgrTrigger
  infer_instance

/-- The container commit: each packet with a positive write position is
detached into the container slot and the Manager's reference nulled and
position zeroed; zero-event packets stay open.  An all-empty container is
not handed over (no forced-reset path exists in this abstraction). -/
def mgrCommit (maxSize : Nat) (s : MgrState) (force : Bool) : MgrState :=
  if mgrTrigger maxSize s force then
    let cont : MgrContainer :=
      { pol := if 0 < s.polPos then s.pol else none
        spec := if 0 < s.specPos then s.spec else none
        frm := if 0 < s.frmPos then s.frm else none
        imu := if 0 < s.imuPos then s.imu else none }
    let emptyContainerCommit :=
      s.polPos = 0 ∧ s.specPos = 0 ∧ s.frmPos = 0 ∧ s.imuPos = 0
    { s with
      pol := if 0 < s.polPos then none else s.pol
      spec := if 0 < s.specPos then none else s.spec
      frm := if 0 < s.frmPos then none else s.frm
      imu := if 0 < s.imuPos then none else s.imu
      polPos := if 0 < s.polPos then 0 else s.polPos
      specPos := if 0 < s.specPos then 0 else s.specPos
      frmPos := if 0 < s.frmPos then 0 else s.frmPos
      imuPos := if 0 < s.imuPos then 0 else s.imuPos
      out := s.out ++ (if emptyContainerCommit then [] else [cont]) }
  else s

/-- One Manager cycle: allocate missing packets, let the decoded unit
append its events, then evaluate the commit triggers. -/
def mgrStep (maxSize : Nat) (s : MgrState) (inp : MgrInput) : MgrState :=
  mgrCommit maxSize (mgrAppend (mgrAllocate s) inp) inp.forceCommit

def mgrRun (maxSize : Nat) (s : MgrState) (inps : List MgrInput) : MgrState :=
  inps.foldl (mgrStep maxSize) s

/-- Manager state at `dataStart`: no packets yet, nothing committed. -/
def mgrInitial : MgrState :=
  { nextId := 0, pol := none, spec := none, frm := none, imu := none
    polPos := 0, specPos := 0, frmPos := 0, imuPos := 0, out := [] }

/-! ## General lemmas -/

theorem I32T_eq_of_range {x : Int} (h1 : -(2 ^ 31) ≤ x) (h2 : x < 2 ^ 31) :
    I32T x = x := by
  unfold I32T
  have h3 : (0 : Int) ≤ x + 2 ^ 31 := by omega
  have h4 : x + 2 ^ 31 < 2 ^ 32 := by omega
  rw [Int.emod_eq_of_lt h3 h4]
  omega

theorem U16T_eq_of_range {x : Int} (h1 : 0 ≤ x) (h2 : x < 2 ^ 16) :
    U16T x = x.toNat := by
  unfold U16T
  rw [Int.emod_eq_of_lt h1 h2]
  omega

/-- The commit step moves packets between the open-packet slots and the
container output but neither creates nor destroys polarity events. -/
theorem allPolarity_davisCommit (cfg : DavisConfig) (s : DavisState) (r w : Bool) :
    allPolarity (davisCommit cfg s r w) = allPolarity s := by
  unfold davisCommit
  dsimp only
  split
  · by_cases hp : s.packets.polarity.length > 0 <;>
      by_cases hr : r = true <;> by_cases hw : w = true <;>
        simp_all [allPolarity, tsResetContainer, List.flatMap_append, List.length_pos]
  · rfl

theorem allFrames_davisCommit (cfg : DavisConfig) (s : DavisState) (r w : Bool) :
    allFrames (davisCommit cfg s r w) = allFrames s := by
  unfold davisCommit
  dsimp only
  split
  · by_cases hp : s.packets.frame.length > 0 <;>
      by_cases hr : r = true <;> by_cases hw : w = true <;>
        simp_all [allFrames, tsResetContainer, List.flatMap_append, List.length_pos]
  · rfl

theorem allIMU6_davisCommit (cfg : DavisConfig) (s : DavisState) (r w : Bool) :
    allIMU6 (davisCommit cfg s r w) = allIMU6 s := by
  unfold davisCommit
  dsimp only
  split
  · by_cases hp : s.packets.imu6.length > 0 <;>
      by_cases hr : r = true <;> by_cases hw : w = true <;>
        simp_all [allIMU6, tsResetContainer, List.flatMap_append, List.length_pos]
  · rfl

/-- The commit step preserves all special events, except that a timestamp
reset adds the deferred `TIMESTAMP_RESET` marker; with `tsReset = false`
the special events are preserved exactly. -/
theorem allSpecial_davisCommit (cfg : DavisConfig) (s : DavisState) (w : Bool) :
    allSpecial (davisCommit cfg s false w) = allSpecial s := by
  unfold davisCommit
  dsimp only
  split
  · by_cases hp : s.packets.special.length > 0 <;> by_cases hw : w = true <;>
      simp_all [allSpecial, tsResetContainer, List.flatMap_append, List.length_pos]
  · rfl

/-! ## Claim C6 -/

/-- Claim C6: an invocation of the event translator while the running flag
is false returns immediately with the state unchanged — no event appended,
no container committed, no timestamp/APS/IMU/packet state change. -/
theorem davisEventTranslator_not_running (cfg : DavisConfig) (s : DavisState)
    (buffer : List Nat) : davisEventTranslator false cfg s buffer = s := by
  simp [davisEventTranslator]

/-! ## Claim C9 -/

/-- Claim C9 counterexample: feeding the two 16-bit units 0x0001 and 0x8002
to the decoder (default orientation, in-range DAVIS240 geometry) produces
no polarity event at all — 0x0001 decodes as a timestamp-reset special
marker and 0x8002 as a timestamp unit — contradicting the claimed single
PolarityEvent{x=2, y=1, ON}. -/
theorem scenario_0001_8002_no_polarity :
    allPolarity (davisTranslateUnits exampleConfig (davisInitialState exampleConfig)
      [0x0001, 0x8002]) = [] := by
  decide

/-- Claim C9 (amended): the Y-address unit for Y=1 is 0x1001 and the
X-address/polarity-ON unit for X=2 is 0x3002; feeding these two consecutive
units under default orientation and in-range geometry produces exactly one
PolarityEvent with x=2, y=1, polarity ON. -/
theorem scenario_1001_3002_one_polarity :
    allPolarity (davisTranslateUnits exampleConfig (davisInitialState exampleConfig)
      [0x1001, 0x3002])
      = [{ timestamp := 0, x := 2, y := 1, polarity := true }] := by
  decide

/-! ## Decoding facts for timestamp-wrap units -/

theorem wrap_unit_decode (w : Nat) (h : w < 4096) :
    ((0x7000 + w) &&& 0x8000 = 0)
    ∧ (((0x7000 + w) &&& 0x7000) >>> 12 = 7)
    ∧ ((0x7000 + w) &&& 0x0FFF = w) := by
  refine ⟨?_, ?_, ?_⟩
  · rw [show (0x8000 : Nat) = 2 ^ 15 by norm_num, Nat.and_two_pow,
      Nat.testBit_to_div_mod]
    simp
    omega
  · have hm : ∃ m, m = 0x7000 + w := ⟨_, rfl⟩
    obtain ⟨m, hm⟩ := hm
    rw [← hm,
      show (0x7000 : Nat) = 2 ^ 12 ||| (2 ^ 13 ||| 2 ^ 14) by decide,
      Nat.and_or_distrib_left, Nat.and_or_distrib_left,
      Nat.and_two_pow, Nat.and_two_pow, Nat.and_two_pow,
      Nat.testBit_to_div_mod, Nat.testBit_to_div_mod, Nat.testBit_to_div_mod]
    have h12 : m / 4096 % 2 = 1 := by omega
    have h13 : m / 8192 % 2 = 1 := by omega
    have h14 : m / 16384 % 2 = 1 := by omega
    simp [h12, h13, h14]
  · rw [show (0x0FFF : Nat) = 2 ^ 12 - 1 by norm_num,
      Nat.and_pow_two_sub_one_eq_mod]
    omega

/-- Bounds preservation of the wrap engine: starting from a wrap base in
`[0, INT32_MAX]` and a multiplier below 2^12, the new base stays in range
and `wrapOverflow` advances by the big-wrap indicator. -/
theorem handleTimestampWrap_bounds (ts : TimestampsState) (w : Nat) (hw : w < 4096)
    (hLo : 0 ≤ ts.wrapAdd) (hHi : ts.wrapAdd ≤ INT32_MAX) :
    0 ≤ (handleTimestampWrap ts w TS_WRAP_ADD).1.wrapAdd
      ∧ (handleTimestampWrap ts w TS_WRAP_ADD).1.wrapAdd ≤ INT32_MAX
      ∧ (handleTimestampWrap ts w TS_WRAP_ADD).1.wrapOverflow
          = ts.wrapOverflow + (if (handleTimestampWrap ts w TS_WRAP_ADD).2 then 1 else 0) := by
  have hw' : (w : Int) ≤ 4095 := by exact_mod_cast Nat.le_of_lt_succ (by omega)
  have hcast : (TS_WRAP_ADD : Int) = 32768 := by norm_num [TS_WRAP_ADD]
  unfold handleTimestampWrap
  dsimp only
  rw [hcast]
  split
  · rename_i hbig
    dsimp only
    have h1 : I32T (ts.wrapAdd + 32768 * (w : Int) - INT32_MAX - 1)
        = ts.wrapAdd + 32768 * (w : Int) - INT32_MAX - 1 := by
      apply I32T_eq_of_range
      · unfold INT32_MAX at hbig ⊢
        omega
      · unfold INT32_MAX at hHi ⊢
        omega
    simp only [h1]
    refine ⟨?_, ?_, by simp⟩
    · unfold INT32_MAX at hbig ⊢
      omega
    · unfold INT32_MAX at hHi ⊢
      omega
  · rename_i hbig
    push_neg at hbig
    dsimp only
    have h1 : I32T (ts.wrapAdd + 32768 * (w : Int))
        = ts.wrapAdd + 32768 * (w : Int) := by
      apply I32T_eq_of_range
      · have : (0 : Int) ≤ (w : Int) := by positivity
        omega
      · unfold INT32_MAX at hbig
        omega
    simp only [h1]
    have : (0 : Int) ≤ (w : Int) := by positivity
    refine ⟨by omega, by simpa using hbig, by simp⟩

/-- Effect of one timestamp-wrap unit `0x7000 + w` on the translator, with
the container size/time commit triggers disabled: the timestamp engine
steps by `handleTimestampWrap`; a big wrap appends the `TIMESTAMP_WRAP`
special event (payload `INT32_MAX`) and forces exactly one container
commit, an ordinary wrap forces none. -/
theorem davis_wrap_unit_step (cfg : DavisConfig) (s : DavisState) (w : Nat)
    (hw : w < 4096)
    (hsize : cfg.maxContainerPacketSize = 0)
    (hint : cfg.maxContainerInterval = 0) :
    (davisProcessUnit cfg s (0x7000 + w)).timestamps
        = (handleTimestampWrap s.timestamps w TS_WRAP_ADD).1
    ∧ (davisProcessUnit cfg s (0x7000 + w)).out.length
        = s.out.length + (if (handleTimestampWrap s.timestamps w TS_WRAP_ADD).2 then 1 else 0)
    ∧ allSpecial (davisProcessUnit cfg s (0x7000 + w))
        = allSpecial s
          ++ (if (handleTimestampWrap s.timestamps w TS_WRAP_ADD).2
              then [{ timestamp := INT32_MAX, typ := SpecialEventType.TIMESTAMP_WRAP }]
              else []) := by
  obtain ⟨hd1, hd2, hd3⟩ := wrap_unit_decode w hw
  unfold davisProcessUnit davisHandleUnit
  rw [hd1]
  simp only [hd2, hd3]
  rcases hr : handleTimestampWrap s.timestamps w TS_WRAP_ADD with ⟨ts', big⟩
  simp only [hr]
  cases big
  · -- ordinary wrap: no commit at all
    simp only [davisCommit, commitTimestampInit, appendSpecial, isCommitTimestampElapsed,
      hsize, hint]
    by_cases hc : s.commitTimestamp = -1 <;>
      simp [hc, allSpecial]
  · -- big wrap: the special event is appended and one container committed
    simp only [davisCommit, appendSpecial, isCommitTimestampElapsed, hsize, hint]
    simp [allSpecial, List.flatMap_append, tsResetContainer]

/-! ## Claim C3 -/

/-- Claim C3 counterexample: on a big wrap (state `wrapAdd = INT32_MAX`,
multiplier 1), the timestamp engine resets `wrapAdd`/`current` to the new
base 32767 (the remainder) but resets `last` to 0, not to the new base —
refuting the claim that both `current` and `last` are reset to the new
base. -/
theorem wrap_overflow_last_not_base :
    (handleTimestampWrap
        { wrapOverflow := 0, wrapAdd := INT32_MAX, last := 5, current := 7 }
        1 TS_WRAP_ADD).2 = true
    ∧ (handleTimestampWrap
        { wrapOverflow := 0, wrapAdd := INT32_MAX, last := 5, current := 7 }
        1 TS_WRAP_ADD).1.wrapAdd = 32767
    ∧ (handleTimestampWrap
        { wrapOverflow := 0, wrapAdd := INT32_MAX, last := 5, current := 7 }
        1 TS_WRAP_ADD).1.current = 32767
    ∧ (handleTimestampWrap
        { wrapOverflow := 0, wrapAdd := INT32_MAX, last := 5, current := 7 }
        1 TS_WRAP_ADD).1.last = 0
    ∧ ¬(handleTimestampWrap
        { wrapOverflow := 0, wrapAdd := INT32_MAX, last := 5, current := 7 }
        1 TS_WRAP_ADD).1.last
        = (handleTimestampWrap
            { wrapOverflow := 0, wrapAdd := INT32_MAX, last := 5, current := 7 }
            1 TS_WRAP_ADD).1.wrapAdd := by
  refine ⟨by decide, by decide, by decide, by decide, by decide⟩

/-- Claim C3 (amended): for a timestamp-wrap unit with multiplier `data`
and a timestamp engine whose wrap base is in `[0, INT32_MAX]` (with the
size/time container triggers disabled): the engine computes the 64-bit sum
`wrapAdd + TS_WRAP_ADD * data`; if it exceeds `INT32_MAX`, `wrapAdd` and
`current` are reset to the remainder `sum - INT32_MAX - 1`, `last` is reset
to zero, `wrapOverflow` increments by one, and exactly one container commit
is forced, carrying a `TIMESTAMP_WRAP` special event with the `INT32_MAX`
sentinel payload; otherwise `wrapAdd` becomes the sum, `current` advances
to it, and no commit is forced. -/
theorem wrap_unit_semantics (cfg : DavisConfig) (s : DavisState) (data : Nat)
    (hd : data < 4096)
    (hLo : 0 ≤ s.timestamps.wrapAdd) (hHi : s.timestamps.wrapAdd ≤ INT32_MAX)
    (hsize : cfg.maxContainerPacketSize = 0)
    (hint : cfg.maxContainerInterval = 0) :
    (s.timestamps.wrapAdd + 32768 * (data : Int) > INT32_MAX →
        (davisProcessUnit cfg s (0x7000 + data)).timestamps
          = { wrapOverflow := s.timestamps.wrapOverflow + 1
              wrapAdd := s.timestamps.wrapAdd + 32768 * (data : Int) - INT32_MAX - 1
              last := 0
              current := s.timestamps.wrapAdd + 32768 * (data : Int) - INT32_MAX - 1 }
        ∧ (davisProcessUnit cfg s (0x7000 + data)).out.length = s.out.length + 1
        ∧ allSpecial (davisProcessUnit cfg s (0x7000 + data))
            = allSpecial s
              ++ [{ timestamp := INT32_MAX, typ := SpecialEventType.TIMESTAMP_WRAP }])
    ∧ (s.timestamps.wrapAdd + 32768 * (data : Int) ≤ INT32_MAX →
        (davisProcessUnit cfg s (0x7000 + data)).timestamps
          = { wrapOverflow := s.timestamps.wrapOverflow
              wrapAdd := s.timestamps.wrapAdd + 32768 * (data : Int)
              last := s.timestamps.current
              current := s.timestamps.wrapAdd + 32768 * (data : Int) }
        ∧ (davisProcessUnit cfg s (0x7000 + data)).out.length = s.out.length
        ∧ allSpecial (davisProcessUnit cfg s (0x7000 + data)) = allSpecial s) := by
  obtain ⟨h1, h2, h3⟩ := davis_wrap_unit_step cfg s data hd hsize hint
  have hcast : (TS_WRAP_ADD : Int) = 32768 := by norm_num [TS_WRAP_ADD]
  have hd' : (data : Int) ≤ 4095 := by exact_mod_cast Nat.le_of_lt_succ (by omega)
  have hd0 : (0 : Int) ≤ (data : Int) := by positivity
  constructor
  · intro hbig
    have hwr : handleTimestampWrap s.timestamps data TS_WRAP_ADD
        = ({ wrapOverflow := s.timestamps.wrapOverflow + 1
             wrapAdd := s.timestamps.wrapAdd + 32768 * (data : Int) - INT32_MAX - 1
             last := 0
             current := s.timestamps.wrapAdd + 32768 * (data : Int) - INT32_MAX - 1 },
           true) := by
      have hrange : I32T (s.timestamps.wrapAdd + 32768 * (data : Int) - INT32_MAX - 1)
          = s.timestamps.wrapAdd + 32768 * (data : Int) - INT32_MAX - 1 := by
        apply I32T_eq_of_range
        · unfold INT32_MAX at hbig ⊢
          omega
        · unfold INT32_MAX at hHi ⊢
          omega
      simp only [handleTimestampWrap, hcast]
      rw [if_pos hbig, hrange]
    rw [hwr] at h1 h2 h3
    simp at h2 h3
    exact ⟨h1, h2, h3⟩
  · intro hsmall
    have hwr : handleTimestampWrap s.timestamps data TS_WRAP_ADD
        = ({ wrapOverflow := s.timestamps.wrapOverflow
             wrapAdd := s.timestamps.wrapAdd + 32768 * (data : Int)
             last := s.timestamps.current
             current := s.timestamps.wrapAdd + 32768 * (data : Int) },
           false) := by
      have hrange : I32T (s.timestamps.wrapAdd + 32768 * (data : Int))
          = s.timestamps.wrapAdd + 32768 * (data : Int) := by
        apply I32T_eq_of_range
        · omega
        · unfold INT32_MAX at hsmall
          omega
      simp only [handleTimestampWrap, hcast]
      rw [if_neg (by omega), hrange]
    rw [hwr] at h1 h2 h3
    simp at h2 h3
    exact ⟨h1, h2, h3⟩

/-- Claim C3 witness instance: a big wrap from `wrapAdd = INT32_MAX` with
multiplier 1 at the translator level. -/
theorem wrap_unit_semantics_instance :
    (davisProcessUnit exampleConfig
        { davisInitialState exampleConfig with
          timestamps := { wrapOverflow := 0, wrapAdd := INT32_MAX, last := 5, current := 7 } }
        (0x7000 + 1)).timestamps
      = { wrapOverflow := 1, wrapAdd := 32767, last := 0, current := 32767 }
    ∧ (davisProcessUnit exampleConfig
        { davisInitialState exampleConfig with
          timestamps := { wrapOverflow := 0, wrapAdd := INT32_MAX, last := 5, current := 7 } }
        (0x7000 + 1)).out.length = 1 := by
  have h := (wrap_unit_semantics exampleConfig
    { davisInitialState exampleConfig with
      timestamps := { wrapOverflow := 0, wrapAdd := INT32_MAX, last := 5, current := 7 } }
    1 (by decide) (by decide) (by decide) rfl rfl).1 (by decide)
  refine ⟨?_, h.2.1⟩
  rw [h.1]
  decide

/-! ## Claim C4 -/

/-- Claim C4 counterexample: a single ordinary (non-overflowing) wrap unit
fed to the decoder from the initial state forces no container commit
boundary at all — the wrap base advances to 0x8000 but `out` stays empty —
refuting the claim that every wrap unit forces exactly one isolated commit
boundary. -/
theorem wrap_unit_without_commit :
    (davisTranslateUnits exampleConfig (davisInitialState exampleConfig) [0x7001]).out = []
    ∧ (davisTranslateUnits exampleConfig (davisInitialState exampleConfig)
        [0x7001]).timestamps.wrapAdd = 0x8000 := by
  refine ⟨by decide, by decide⟩

/-- Claim C4 (amended): over any sequence of timestamp-wrap units (size and
time triggers disabled, wrap base initially in `[0, INT32_MAX]`), the
`wrapOverflow` counter is non-decreasing — it grows by exactly the number
of big wraps in the sequence — and each big-wrap unit forces exactly one
isolated container commit boundary while ordinary wrap units force none:
the number of committed containers equals the number of big wraps. -/
theorem wrap_sequence_monotone (cfg : DavisConfig) (s : DavisState) (ws : List Nat)
    (hws : ∀ w ∈ ws, w < 4096)
    (hLo : 0 ≤ s.timestamps.wrapAdd) (hHi : s.timestamps.wrapAdd ≤ INT32_MAX)
    (hsize : cfg.maxContainerPacketSize = 0)
    (hint : cfg.maxContainerInterval = 0) :
    (davisTranslateUnits cfg s (ws.map (fun w => 0x7000 + w))).timestamps.wrapOverflow
        = s.timestamps.wrapOverflow + (bigWrapCount s.timestamps ws : Int)
    ∧ s.timestamps.wrapOverflow
        ≤ (davisTranslateUnits cfg s (ws.map (fun w => 0x7000 + w))).timestamps.wrapOverflow
    ∧ (davisTranslateUnits cfg s (ws.map (fun w => 0x7000 + w))).out.length
        = s.out.length + bigWrapCount s.timestamps ws := by
  induction ws generalizing s with
  | nil =>
    simp [davisTranslateUnits, bigWrapCount]
  | cons w ws ih =>
    have hw : w < 4096 := hws w (List.mem_cons_self w ws)
    have hws' : ∀ v ∈ ws, v < 4096 := fun v hv => hws v (List.mem_cons_of_mem w hv)
    obtain ⟨h1, h2, _⟩ := davis_wrap_unit_step cfg s w hw hsize hint
    obtain ⟨b1, b2, b3⟩ := handleTimestampWrap_bounds s.timestamps w hw hLo hHi
    have hstep : davisTranslateUnits cfg s ((w :: ws).map (fun v => 0x7000 + v))
        = davisTranslateUnits cfg (davisProcessUnit cfg s (0x7000 + w))
            (ws.map (fun v => 0x7000 + v)) := by
      simp [davisTranslateUnits]
    obtain ⟨i1, i2, i3⟩ := ih (davisProcessUnit cfg s (0x7000 + w)) hws'
      (by rw [h1]; exact b1) (by rw [h1]; exact b2)
    rw [hstep]
    have hbc : bigWrapCount s.timestamps (w :: ws)
        = (if (handleTimestampWrap s.timestamps w TS_WRAP_ADD).2 then 1 else 0)
          + bigWrapCount (handleTimestampWrap s.timestamps w TS_WRAP_ADD).1 ws := by
      simp [bigWrapCount]
    refine ⟨?_, ?_, ?_⟩
    · rw [i1, h1, b3, hbc]
      push_cast
      ring
    · rw [i1, h1, b3]
      split <;> omega
    · rw [i3, h2, hbc, h1]
      omega

/-- Claim C4 witness instance: two units — one big wrap from a near-limit
base, then one ordinary wrap — yield exactly one committed container and a
`wrapOverflow` increment of one. -/
theorem wrap_sequence_monotone_instance :
    (davisTranslateUnits exampleConfig
        { davisInitialState exampleConfig with
          timestamps := { wrapOverflow := 0, wrapAdd := INT32_MAX, last := 0, current := 0 } }
        ([1, 2].map (fun w => 0x7000 + w))).timestamps.wrapOverflow = 1
    ∧ (davisTranslateUnits exampleConfig
        { davisInitialState exampleConfig with
          timestamps := { wrapOverflow := 0, wrapAdd := INT32_MAX, last := 0, current := 0 } }
        ([1, 2].map (fun w => 0x7000 + w))).out.length = 1 := by
  have h := wrap_sequence_monotone exampleConfig
    { davisInitialState exampleConfig with
      timestamps := { wrapOverflow := 0, wrapAdd := INT32_MAX, last := 0, current := 0 } }
    [1, 2] (by decide) (by decide) (by decide) rfl rfl
  refine ⟨?_, ?_⟩
  · rw [h.1]
    decide
  · rw [h.2.2]
    decide

/-! ## Claim C1 -/

/-- Claim C1: at an APS Frame End marker with `aps.ignoreEvents` false (and
packet growth succeeding, which is implicit in this model), a FrameEvent is
appended to the frame packet if and only if the observed column counter of
every readout phase (RESET and SIGNAL) equals the expected column count
derived from the configured ROI; on any mismatch nothing is emitted and the
accumulated pixel buffer is simply abandoned. -/
theorem frame_end_emits_iff_column_counts (cfg : DavisConfig) (s : DavisState)
    (h : s.aps.ignoreEvents = false) :
    allFrames (davisProcessUnit cfg s 0x000A)
      = allFrames s
        ++ (if s.aps.countXReset = s.aps.expectedCountX
              ∧ s.aps.countXSignal = s.aps.expectedCountX
            then [frameEventOf s] else []) := by
  unfold davisProcessUnit davisHandleUnit davisHandleSpecial
  by_cases hv : s.aps.countXReset = s.aps.expectedCountX
      ∧ s.aps.countXSignal = s.aps.expectedCountX <;>
    simp +decide [h, hv, apsEndFrame, appendSpecial] <;>
    rw [allFrames_davisCommit] <;>
    simp [allFrames, frameEventOf]

/-- Claim C1 witness instance: a state with matching column counters emits
exactly one FrameEvent, one with a mismatched SIGNAL-phase column counter
emits none. -/
theorem frame_end_emits_iff_column_counts_instance :
    (allFrames (davisProcessUnit exampleConfig
        { davisInitialState exampleConfig with
          aps := { (davisInitialState exampleConfig).aps with
                   ignoreEvents := false, countXReset := 0, countXSignal := 0 } }
        0x000A)).length = 1
    ∧ (allFrames (davisProcessUnit exampleConfig
        { davisInitialState exampleConfig with
          aps := { (davisInitialState exampleConfig).aps with
                   ignoreEvents := false, countXReset := 0, countXSignal := 5 } }
        0x000A)).length = 0 := by
  constructor
  · rw [frame_end_emits_iff_column_counts _ _ rfl]
    decide
  · rw [frame_end_emits_iff_column_counts _ _ rfl]
    decide

/-! ## Claim C5 -/

theorem apsCDSPixelValue_eq (r sg : Nat) :
    apsCDSPixelValue r sg
      = (if r < 384 ∨ sg = 0 then 1023
         else min 1023 (max 0 ((r : Int) - (sg : Int))).toNat) * 2 ^ (16 - APS_ADC_DEPTH) := by
  simp only [apsCDSPixelValue, U16T, APS_ADC_DEPTH]
  split_ifs <;> omega

/-- The pixel buffer written by `apsUpdateFrame`: the raw sample on the
logically first phase, the CDS value on the second. -/
theorem apsUpdateFrame_pixels (cfg : DavisConfig) (s : DavisState) (data : Nat) :
    (apsUpdateFrame cfg s data).aps.frame.pixels
      = if (s.aps.currentReadoutType = ReadoutType.reset
            ∧ ¬((cfg.isDavis640H && s.aps.globalShutter) = true))
          ∨ (s.aps.currentReadoutType = ReadoutType.signal
            ∧ (cfg.isDavis640H && s.aps.globalShutter) = true)
        then s.aps.frame.pixels.set (apsPixelPosition cfg s.aps) data
        else s.aps.frame.pixels.set (apsPixelPosition cfg s.aps)
          (apsCDSPixelValue
            (if cfg.isDavis640H && s.aps.globalShutter then data
              else s.aps.frame.pixels.getD (apsPixelPosition cfg s.aps) 0)
            (if cfg.isDavis640H && s.aps.globalShutter
              then s.aps.frame.pixels.getD (apsPixelPosition cfg s.aps) 0
              else data)) := by
  unfold apsUpdateFrame
  dsimp only
  split_ifs <;> rfl

/-- Claim C5: for an ADC sample processed in the second readout phase of a
pixel (the phase whose counterpart sample is already stored at that pixel
position), the stored pixel value equals `resetSample - signalSample`
clamped to [0, 1023] and left-shifted to the 16-bit output depth — except
when `resetSample < 384` or `signalSample = 0`, in which case the pixel is
forced to the maximum value 1023 before the shift.  (On DAVIS640H global
shutter the signal sample is the stored one and the reset sample the
incoming one; on all other paths the stored sample is the reset one.) -/
theorem cds_second_phase (cfg : DavisConfig) (s : DavisState) (data : Nat)
    (hphase : (s.aps.currentReadoutType = ReadoutType.signal
          ∧ (cfg.isDavis640H && s.aps.globalShutter) = false)
        ∨ (s.aps.currentReadoutType = ReadoutType.reset
          ∧ (cfg.isDavis640H && s.aps.globalShutter) = true))
    (hpos : apsPixelPosition cfg s.aps < s.aps.frame.pixels.length) :
    (apsUpdateFrame cfg s data).aps.frame.pixels.getD (apsPixelPosition cfg s.aps) 0
      = (if (if cfg.isDavis640H && s.aps.globalShutter then data
              else s.aps.frame.pixels.getD (apsPixelPosition cfg s.aps) 0) < 384
            ∨ (if cfg.isDavis640H && s.aps.globalShutter
                then s.aps.frame.pixels.getD (apsPixelPosition cfg s.aps) 0
                else data) = 0
          then 1023
          else min 1023 (max 0
            (((if cfg.isDavis640H && s.aps.globalShutter then data
                else s.aps.frame.pixels.getD (apsPixelPosition cfg s.aps) 0 : Nat) : Int)
              - ((if cfg.isDavis640H && s.aps.globalShutter
                  then s.aps.frame.pixels.getD (apsPixelPosition cfg s.aps) 0
                  else data : Nat) : Int))).toNat)
        * 2 ^ (16 - APS_ADC_DEPTH) := by
  have hbranch : ¬((s.aps.currentReadoutType = ReadoutType.reset
        ∧ ¬((cfg.isDavis640H && s.aps.globalShutter) = true))
      ∨ (s.aps.currentReadoutType = ReadoutType.signal
        ∧ (cfg.isDavis640H && s.aps.globalShutter) = true)) := by
    rcases hphase with ⟨hrt, hgs⟩ | ⟨hrt, hgs⟩ <;> simp [hrt, hgs]
  rw [apsUpdateFrame_pixels, if_neg hbranch]
  simp [List.getD, List.getElem?_set, hpos, apsCDSPixelValue_eq]

/-- Claim C5 witness instance: stored reset sample 500, incoming signal
sample 100 on a non-DAVIS640H sensor in the SIGNAL phase yield
`(500 - 100) << 6 = 25600`. -/
theorem cds_second_phase_instance :
    (apsUpdateFrame exampleConfig
        { davisInitialState exampleConfig with
          aps := { (davisInitialState exampleConfig).aps with
                   currentReadoutType := ReadoutType.signal
                   frame := { tsStartFrame := 0, tsStartExposure := 0, tsEndExposure := 0
                              pixels := [500] } } }
        100).aps.frame.pixels.getD 0 0 = 25600 := by
  have h := cds_second_phase exampleConfig
    { davisInitialState exampleConfig with
      aps := { (davisInitialState exampleConfig).aps with
               currentReadoutType := ReadoutType.signal
               frame := { tsStartFrame := 0, tsStartExposure := 0, tsEndExposure := 0
                          pixels := [500] } } }
    100 (Or.inl ⟨rfl, rfl⟩) (by decide)
  have hp : apsPixelPosition exampleConfig
      { (davisInitialState exampleConfig).aps with
        currentReadoutType := ReadoutType.signal
        frame := { tsStartFrame := 0, tsStartExposure := 0, tsEndExposure := 0
                   pixels := [500] } } = 0 := by decide
  rw [hp] at h
  rw [h]
  decide

/-! ## Claim C2 -/

/-- Claim C2 counterexample: the burst [IMU Start, six IMU data fields,
IMU End] starting from the post-`dataStart` state (where IMU Start leaves
`imu.type = 0`) emits an IMU6 event even though only 6 ≠ 14 =
`IMU_TOTAL_COUNT` fields were consumed: with no sensor-type flags set, the
step counter jumps from 5 to 13 at the sixth field, reaching 14 at the End
marker. -/
theorem imu_six_fields_emit :
    (List.countP
        (fun u => decide ((u &&& 0xF000) = 0x5000 ∧ (u &&& 0x0F00) >>> 8 = 0))
        [0x0005, 0x5000, 0x5000, 0x5000, 0x5000, 0x5000, 0x5000, 0x0007] = 6)
    ∧ (allIMU6 (davisTranslateUnits exampleConfig (davisInitialState exampleConfig)
        [0x0005, 0x5000, 0x5000, 0x5000, 0x5000, 0x5000, 0x5000, 0x0007])).length = 1
    ∧ 6 ≠ IMU_TOTAL_COUNT := by
  refine ⟨by decide, by decide, by decide⟩

/-- Claim C2 (amended): at an IMU End marker with `imu.ignoreEvents` false,
an IMU6Event is appended to the IMU6 packet if and only if the IMU step
counter equals `IMU_TOTAL_COUNT` (14) at that point; otherwise the burst is
discarded without emission.  The counter advances by one per consumed field
plus the configured jumps for absent sensor types, so it equals the number
of consumed fields exactly when accelerometer, temperature and gyroscope
are all enabled. -/
theorem imu_end_emits_iff_count (cfg : DavisConfig) (s : DavisState)
    (h : s.imu.ignoreEvents = false) :
    allIMU6 (davisProcessUnit cfg s 0x0007)
      = allIMU6 s
        ++ (if s.imu.count = IMU_TOTAL_COUNT
            then [{ s.imu.currentEvent with timestamp := s.timestamps.current }]
            else []) := by
  unfold davisProcessUnit davisHandleUnit davisHandleSpecial
  by_cases hc : s.imu.count = IMU_TOTAL_COUNT <;>
    simp +decide [h, hc] <;>
    rw [allIMU6_davisCommit] <;>
    simp [allIMU6]

/-- Claim C2 witness instance. -/
theorem imu_end_emits_iff_count_instance :
    allIMU6 (davisProcessUnit exampleConfig
        { davisInitialState exampleConfig with
          imu := { ignoreEvents := false, count := 14, tmpData := 0, typ := 7
                   currentEvent := IMU6Event.zero } } 0x0007)
      = [{ IMU6Event.zero with timestamp := 0 }] := by
  have h := imu_end_emits_iff_count exampleConfig
    { davisInitialState exampleConfig with
      imu := { ignoreEvents := false, count := 14, tmpData := 0, typ := 7
               currentEvent := IMU6Event.zero } } rfl
  simpa [allIMU6, davisInitialState, IMU6Event.zero] using h

/-! ## Claim C8 -/

theorem mipiCommit_timestamps (cfg : MipiConfig) (s : MipiState) :
    (mipiCommit cfg s).timestamps = s.timestamps := by
  unfold mipiCommit
  dsimp only
  split <;> rfl

/-- Claim C8: in the MIPI 32-bit decoder, when a column unit arrives whose
10-bit sub-timestamp is strictly smaller than the previous column unit's
(recorded in `lastSub`) and no reference-timestamp unit was observed in
between (the current reference still equals the last received reference),
the stale reference is advanced by exactly 1000 µs before `current` is
recomputed as reference plus sub-timestamp. -/
theorem sub_timestamp_wrap_compensation (cfg : MipiConfig) (s : MipiState) (event : Nat)
    (htop : event &&& 0x80000000 = 0)
    (hcol : event &&& 0x04000000 ≠ 0)
    (href : event &&& 0x08000000 = 0)
    (hEq : s.timestamps.currentReference = s.timestamps.lastReference)
    (hLt : (event >>> 11) &&& 0x03FF < s.timestamps.lastSub) :
    (mipiProcessUnit cfg s event).timestamps.lastReference
        = s.timestamps.lastReference + 1000
    ∧ (mipiProcessUnit cfg s event).timestamps.currentReference
        = s.timestamps.lastReference + 1000
    ∧ (mipiProcessUnit cfg s event).timestamps.current
        = I32T (s.timestamps.lastReference + 1000
            + (((event >>> 11) &&& 0x03FF : Nat) : Int)) := by
  have hne : (event >>> 11) &&& 0x03FF ≠ s.timestamps.lastSub := Nat.ne_of_lt hLt
  have hts : mipiColumnTimestamps s.timestamps ((event >>> 11) &&& 0x03FF)
      = { last := s.timestamps.current
          current := I32T (s.timestamps.lastReference + 1000
            + (((event >>> 11) &&& 0x03FF : Nat) : Int))
          lastReference := s.timestamps.lastReference + 1000
          currentReference := s.timestamps.lastReference + 1000
          lastSub := (event >>> 11) &&& 0x03FF } := by
    unfold mipiColumnTimestamps
    rw [if_pos hne, if_pos ⟨hEq, hLt⟩]
    simp [add_assoc]
  unfold mipiProcessUnit
  rw [if_neg (by simp [htop])]
  dsimp only
  rw [if_pos hcol, if_neg (by simp [href]), mipiCommit_timestamps]
  unfold mipiHandleColumn
  dsimp only
  rw [hts]
  split_ifs <;> simp

/-- Claim C8 witness instance: reference 5000 = last received reference,
previous sub-timestamp 100, new column unit with sub-timestamp 50: the
reference advances to 6000 and `current` becomes 6050. -/
theorem sub_timestamp_wrap_compensation_instance :
    (mipiProcessUnit { maxContainerPacketSize := 0, maxContainerInterval := 0 }
        { mipiInitialState with
          timestamps := { last := 0, current := 0, lastReference := 5000
                          currentReference := 5000, lastSub := 100 } }
        0x04019003).timestamps.lastReference = 6000
    ∧ (mipiProcessUnit { maxContainerPacketSize := 0, maxContainerInterval := 0 }
        { mipiInitialState with
          timestamps := { last := 0, current := 0, lastReference := 5000
                          currentReference := 5000, lastSub := 100 } }
        0x04019003).timestamps.current = 6050 := by
  have h := sub_timestamp_wrap_compensation
    { maxContainerPacketSize := 0, maxContainerInterval := 0 }
    { mipiInitialState with
      timestamps := { last := 0, current := 0, lastReference := 5000
                      currentReference := 5000, lastSub := 100 } }
    0x04019003 (by decide) (by decide) (by decide) rfl (by decide)
  refine ⟨h.1, ?_⟩
  rw [h.2.2]
  decide

/-! ## Claim C10 -/

/-- The decoder state reachable before the first column unit: container
commit timestamp still at the `-1` sentinel, `current` still zero, no
events accumulated, nothing committed. -/
def MipiPristine (s : MipiState) : Prop :=
  s.commitTimestamp = -1 ∧ s.timestamps.current = 0
    ∧ s.packets.polarity = [] ∧ s.packets.special = [] ∧ s.out = []

theorem mipiCommit_pristine (cfg : MipiConfig) (s : MipiState) (h : MipiPristine s) :
    mipiCommit cfg s = s := by
  obtain ⟨h1, h2, h3, h4, h5⟩ := h
  unfold mipiCommit
  rw [if_neg]
  intro hc
  rcases hc with ⟨hm, hp⟩ | ht
  · rcases hp with hp | hp <;> simp [h3, h4] at hp <;> omega
  · unfold isCommitTimestampElapsed at ht
    rw [h1, h2] at ht
    omega

theorem mipi_pristine_step (cfg : MipiConfig) (s : MipiState) (event : Nat)
    (h : MipiPristine s)
    (hnc : event &&& 0x80000000 ≠ 0 ∨ event &&& 0x04000000 = 0) :
    MipiPristine (mipiProcessUnit cfg s event) := by
  by_cases htop : event &&& 0x80000000 ≠ 0
  · unfold mipiProcessUnit
    rw [if_pos htop, if_pos h.1]
    exact h
  · have hcol : event &&& 0x04000000 = 0 := by
      rcases hnc with hnc | hnc
      · exact absurd hnc htop
      · exact hnc
    unfold mipiProcessUnit
    rw [if_neg htop]
    dsimp only
    rw [if_neg (show ¬(event &&& 0x04000000 ≠ 0) by simp [hcol])]
    by_cases href : event &&& 0x08000000 ≠ 0
    · rw [if_pos href]
      have h' : MipiPristine { s with timestamps :=
          { s.timestamps with lastReference := ((event &&& 0x003FFFFF) * 1000 : Nat) } } := by
        obtain ⟨h1, h2, h3, h4, h5⟩ := h
        exact ⟨h1, h2, h3, h4, h5⟩
      rw [mipiCommit_pristine cfg _ h']
      exact h'
    · rw [if_neg href, mipiCommit_pristine cfg s h]
      exact h

theorem mipi_pristine_run (cfg : MipiConfig) (s : MipiState) (units : List Nat)
    (h : MipiPristine s)
    (hnc : ∀ u ∈ units, u &&& 0x80000000 ≠ 0 ∨ u &&& 0x04000000 = 0) :
    MipiPristine (mipiTranslateUnits cfg s units) := by
  induction units generalizing s with
  | nil => exact h
  | cons u us ih =>
    have hstep := mipi_pristine_step cfg s u h (hnc u (List.mem_cons_self u us))
    exact ih (mipiProcessUnit cfg s u) hstep
      (fun v hv => hnc v (List.mem_cons_of_mem u hv))

/-- Claim C10: in the MIPI decoder, (a) a group-encoded polarity unit that
arrives while the container commit timestamp is still `-1` (not yet
initialized by any column unit) is skipped entirely with no state change;
(b) consequently, starting from the initial stream state, a unit sequence
containing no column unit produces no PolarityEvent at all — no polarity
event is ever emitted with an uninitialized timestamp. -/
theorem group_units_skipped_before_first_column (cfg : MipiConfig) :
    (∀ (s : MipiState) (event : Nat), s.commitTimestamp = -1 →
        event &&& 0x80000000 ≠ 0 → mipiProcessUnit cfg s event = s)
    ∧ (∀ units : List Nat,
        (∀ u ∈ units, u &&& 0x80000000 ≠ 0 ∨ u &&& 0x04000000 = 0) →
        mipiAllPolarity (mipiTranslateUnits cfg mipiInitialState units) = []) := by
  constructor
  · intro s event hc ht
    unfold mipiProcessUnit
    rw [if_pos ht, if_pos hc]
  · intro units hnc
    have h := mipi_pristine_run cfg mipiInitialState units
      (by unfold MipiPristine mipiInitialState; simp) hnc
    obtain ⟨_, _, h3, _, h5⟩ := h
    unfold mipiAllPolarity
    rw [h3, h5]
    simp

/-- Claim C10 witness instance: a group unit and a reference-timestamp unit
before any column unit leave the polarity output empty, and the group unit
alone changes nothing. -/
theorem group_units_skipped_instance :
    mipiProcessUnit { maxContainerPacketSize := 0, maxContainerInterval := 0 }
        mipiInitialState 0x8000FFFF = mipiInitialState
    ∧ mipiAllPolarity (mipiTranslateUnits
        { maxContainerPacketSize := 0, maxContainerInterval := 0 }
        mipiInitialState [0x8000FFFF, 0x08000001]) = [] := by
  constructor
  · exact (group_units_skipped_before_first_column
      { maxContainerPacketSize := 0, maxContainerInterval := 0 }).1
      mipiInitialState 0x8000FFFF rfl (by decide)
  · exact (group_units_skipped_before_first_column
      { maxContainerPacketSize := 0, maxContainerInterval := 0 }).2
      [0x8000FFFF, 0x08000001] (by decide)

/-! ## Claim C7 -/

/-- Manager invariant, in occurrence-count form: every packet identity
occurs at most once across the committed containers and the open slots,
and every occurring identity is below the allocation counter. -/
def MgrInv (s : MgrState) : Prop :=
  ∀ i : Nat, (attachedIds s ++ slotIds s).count i ≤ 1
    ∧ (0 < (attachedIds s ++ slotIds s).count i → i < s.nextId)

theorem count_opt_split (o : Option Nat) (b : Prop) [Decidable b] (i : Nat) :
    ((if b then o else none).toList).count i + ((if b then none else o).toList).count i
      = o.toList.count i := by
  split <;> simp

theorem allocSpec_inv (s : MgrState) (h : MgrInv s) :
    MgrInv (allocSpec s) ∧ s.nextId ≤ (allocSpec s).nextId := by
  unfold allocSpec
  cases hs : s.spec with
  | some v => exact ⟨h, le_refl _⟩
  | none =>
    refine ⟨?_, by simp⟩
    intro i
    obtain ⟨hc, hb⟩ := h i
    have hz : i = s.nextId → (attachedIds s ++ slotIds s).count i = 0 := by
      intro hi
      by_contra hnz
      have hlt := hb (by omega)
      omega
    by_cases hi : i = s.nextId
    · have h0 := hz hi
      simp only [attachedIds, slotIds, hs, Option.toList_none, Option.toList_some,
        List.count_append, List.count_nil, List.count_cons, beq_iff_eq, hi,
        eq_self_iff_true, if_true] at h0 ⊢
      constructor
      · omega
      · intro _
        omega
    · simp only [attachedIds, slotIds, hs, Option.toList_none, Option.toList_some,
        List.count_append, List.count_nil, List.count_cons, beq_iff_eq,
        if_neg (Ne.symm hi)] at hc hb ⊢
      constructor
      · omega
      · intro hpos
        have := hb (by omega)
        omega

theorem allocPol_inv (s : MgrState) (h : MgrInv s) :
    MgrInv (allocPol s) ∧ s.nextId ≤ (allocPol s).nextId := by
  unfold allocPol
  cases hs : s.pol with
  | some v => exact ⟨h, le_refl _⟩
  | none =>
    refine ⟨?_, by simp⟩
    intro i
    obtain ⟨hc, hb⟩ := h i
    have hz : i = s.nextId → (attachedIds s ++ slotIds s).count i = 0 := by
      intro hi
      by_contra hnz
      have hlt := hb (by omega)
      omega
    by_cases hi : i = s.nextId
    · have h0 := hz hi
      simp only [attachedIds, slotIds, hs, Option.toList_none, Option.toList_some,
        List.count_append, List.count_nil, List.count_cons, beq_iff_eq, hi,
        eq_self_iff_true, if_true] at h0 ⊢
      constructor
      · omega
      · intro _
        omega
    · simp only [attachedIds, slotIds, hs, Option.toList_none, Option.toList_some,
        List.count_append, List.count_nil, List.count_cons, beq_iff_eq,
        if_neg (Ne.symm hi)] at hc hb ⊢
      constructor
      · omega
      · intro hpos
        have := hb (by omega)
        omega

theorem allocFrm_inv (s : MgrState) (h : MgrInv s) :
    MgrInv (allocFrm s) ∧ s.nextId ≤ (allocFrm s).nextId := by
  unfold allocFrm
  cases hs : s.frm with
  | some v => exact ⟨h, le_refl _⟩
  | none =>
    refine ⟨?_, by simp⟩
    intro i
    obtain ⟨hc, hb⟩ := h i
    have hz : i = s.nextId → (attachedIds s ++ slotIds s).count i = 0 := by
      intro hi
      by_contra hnz
      have hlt := hb (by omega)
      omega
    by_cases hi : i = s.nextId
    · have h0 := hz hi
      simp only [attachedIds, slotIds, hs, Option.toList_none, Option.toList_some,
        List.count_append, List.count_nil, List.count_cons, beq_iff_eq, hi,
        eq_self_iff_true, if_true] at h0 ⊢
      constructor
      · omega
      · intro _
        omega
    · simp only [attachedIds, slotIds, hs, Option.toList_none, Option.toList_some,
        List.count_append, List.count_nil, List.count_cons, beq_iff_eq,
        if_neg (Ne.symm hi)] at hc hb ⊢
      constructor
      · omega
      · intro hpos
        have := hb (by omega)
        omega

theorem allocImu_inv (s : MgrState) (h : MgrInv s) :
    MgrInv (allocImu s) ∧ s.nextId ≤ (allocImu s).nextId := by
  unfold allocImu
  cases hs : s.imu with
  | some v => exact ⟨h, le_refl _⟩
  | none =>
    refine ⟨?_, by simp⟩
    intro i
    obtain ⟨hc, hb⟩ := h i
    have hz : i = s.nextId → (attachedIds s ++ slotIds s).count i = 0 := by
      intro hi
      by_contra hnz
      have hlt := hb (by omega)
      omega
    by_cases hi : i = s.nextId
    · have h0 := hz hi
      simp only [attachedIds, slotIds, hs, Option.toList_none, Option.toList_some,
        List.count_append, List.count_nil, List.count_cons, beq_iff_eq, hi,
        eq_self_iff_true, if_true] at h0 ⊢
      constructor
      · omega
      · intro _
        omega
    · simp only [attachedIds, slotIds, hs, Option.toList_none, Option.toList_some,
        List.count_append, List.count_nil, List.count_cons, beq_iff_eq,
        if_neg (Ne.symm hi)] at hc hb ⊢
      constructor
      · omega
      · intro hpos
        have := hb (by omega)
        omega

theorem mgrAllocate_inv (s : MgrState) (h : MgrInv s) : MgrInv (mgrAllocate s) := by
  unfold mgrAllocate
  exact (allocImu_inv _ ((allocFrm_inv _ ((allocPol_inv _
    ((allocSpec_inv s h).1)).1)).1)).1

theorem mgrAppend_inv (s : MgrState) (inp : MgrInput) (h : MgrInv s) :
    MgrInv (mgrAppend s inp) := by
  intro i
  obtain ⟨hc, hb⟩ := h i
  exact ⟨hc, hb⟩

theorem mgrCommit_inv (m : Nat) (s : MgrState) (f : Bool) (h : MgrInv s) :
    MgrInv (mgrCommit m s f) := by
  unfold mgrCommit
  split
  · intro i
    obtain ⟨hc, hb⟩ := h i
    have e1 := count_opt_split s.pol (0 < s.polPos) i
    have e2 := count_opt_split s.spec (0 < s.specPos) i
    have e3 := count_opt_split s.frm (0 < s.frmPos) i
    have e4 := count_opt_split s.imu (0 < s.imuPos) i
    by_cases hempty : s.polPos = 0 ∧ s.specPos = 0 ∧ s.frmPos = 0 ∧ s.imuPos = 0
    · obtain ⟨p1, p2, p3, p4⟩ := hempty
      simp only [attachedIds, slotIds, List.count_append, p1, p2, p3, p4,
        lt_irrefl, if_false, and_self, if_true, List.append_nil] at hc hb ⊢
      constructor
      · exact hc
      · exact hb
    · simp only [attachedIds, slotIds, containerIds, List.count_append,
        List.flatMap_append, List.flatMap_cons, List.flatMap_nil, List.append_nil,
        if_neg hempty] at hc hb e1 e2 e3 e4 ⊢
      constructor
      · omega
      · intro hpos
        apply hb
        omega
  · exact h

theorem mgrStep_inv (m : Nat) (s : MgrState) (inp : MgrInput) (h : MgrInv s) :
    MgrInv (mgrStep m s inp) :=
  mgrCommit_inv m _ inp.forceCommit
    (mgrAppend_inv _ inp (mgrAllocate_inv s h))

theorem mgrRun_inv (m : Nat) (s : MgrState) (inps : List MgrInput) (h : MgrInv s) :
    MgrInv (mgrRun m s inps) := by
  induction inps generalizing s with
  | nil => exact h
  | cons inp inps ih => exact ih (mgrStep m s inp) (mgrStep_inv m s inp h)

/-- Claim C7: on every commit trigger, each of the four packet types is
attached to the Container's slot exactly when its write position is
positive, the Manager's reference is then nulled and the position zeroed,
zero-event packets stay open for reuse; and across any run from the
initial Manager state, no packet instance is ever attached twice — the
list of attached packet identities has no duplicates. -/
theorem manager_commit_no_reattach :
    (∀ (maxSize : Nat) (s : MgrState) (force : Bool), mgrTrigger maxSize s force →
        ((mgrCommit maxSize s force).pol = if 0 < s.polPos then none else s.pol)
        ∧ ((mgrCommit maxSize s force).spec = if 0 < s.specPos then none else s.spec)
        ∧ ((mgrCommit maxSize s force).frm = if 0 < s.frmPos then none else s.frm)
        ∧ ((mgrCommit maxSize s force).imu = if 0 < s.imuPos then none else s.imu)
        ∧ (mgrCommit maxSize s force).polPos = 0
        ∧ (mgrCommit maxSize s force).specPos = 0
        ∧ (mgrCommit maxSize s force).frmPos = 0
        ∧ (mgrCommit maxSize s force).imuPos = 0
        ∧ attachedIds (mgrCommit maxSize s force)
            = attachedIds s
              ++ ((if 0 < s.polPos then s.pol else none).toList
                ++ ((if 0 < s.specPos then s.spec else none).toList
                  ++ ((if 0 < s.frmPos then s.frm else none).toList
                    ++ (if 0 < s.imuPos then s.imu else none).toList))))
    ∧ (∀ (maxSize : Nat) (inps : List MgrInput),
        (attachedIds (mgrRun maxSize mgrInitial inps)).Nodup) := by
  constructor
  · intro maxSize s force htrig
    unfold mgrCommit
    rw [if_pos htrig]
    refine ⟨rfl, rfl, rfl, rfl, ?_, ?_, ?_, ?_, ?_⟩
    · dsimp only
      split <;> omega
    · dsimp only
      split <;> omega
    · dsimp only
      split <;> omega
    · dsimp only
      split <;> omega
    · by_cases hempty : s.polPos = 0 ∧ s.specPos = 0 ∧ s.frmPos = 0 ∧ s.imuPos = 0
      · obtain ⟨p1, p2, p3, p4⟩ := hempty
        simp [attachedIds, p1, p2, p3, p4]
      · simp [attachedIds, containerIds, if_neg hempty, List.flatMap_append,
          List.append_assoc]
  · intro maxSize inps
    have hinv : MgrInv (mgrRun maxSize mgrInitial inps) := by
      apply mgrRun_inv
      intro i
      constructor <;> simp [attachedIds, slotIds, mgrInitial]
    rw [List.nodup_iff_count_le_one]
    intro a
    obtain ⟨hc, _⟩ := hinv a
    rw [List.count_append] at hc
    omega

/-- Claim C7 witness instance: a forced commit with one polarity event and
an empty special packet attaches only the polarity packet (identity 1,
allocated second after the special packet) and nulls its reference; two
runs of a size-triggered workload never attach the same identity twice. -/
theorem manager_commit_no_reattach_instance :
    ((mgrCommit 0
        { nextId := 4, pol := some 1, spec := some 0, frm := some 2, imu := some 3
          polPos := 1, specPos := 0, frmPos := 0, imuPos := 0, out := [] }
        true).pol = none)
    ∧ ((mgrCommit 0
        { nextId := 4, pol := some 1, spec := some 0, frm := some 2, imu := some 3
          polPos := 1, specPos := 0, frmPos := 0, imuPos := 0, out := [] }
        true).spec = some 0)
    ∧ attachedIds (mgrCommit 0
        { nextId := 4, pol := some 1, spec := some 0, frm := some 2, imu := some 3
          polPos := 1, specPos := 0, frmPos := 0, imuPos := 0, out := [] }
        true) = [1]
    ∧ (attachedIds (mgrRun 1 mgrInitial
        [{ polAdd := 1, specAdd := 0, frmAdd := 0, imuAdd := 0, forceCommit := false },
         { polAdd := 1, specAdd := 1, frmAdd := 0, imuAdd := 0, forceCommit := false }])).Nodup := by
  have h := manager_commit_no_reattach
  have h1 := h.1 0
    { nextId := 4, pol := some 1, spec := some 0, frm := some 2, imu := some 3
      polPos := 1, specPos := 0, frmPos := 0, imuPos := 0, out := [] }
    true (Or.inl rfl)
  refine ⟨?_, ?_, ?_, h.2 1 _⟩
  · rw [h1.1]
    decide
  · rw [h1.2.1]
    decide
  · rw [h1.2.2.2.2.2.2.2.2]
    decide

end Libcaer
